import Mathlib

/-!
Shallow embedding of the coapy message layer (src/coapy/option.py and
src/coapy/message.py).

Modelling conventions:
* Python `bytes` values are `List Nat`, each entry intended to be < 256
  (theorems carry the bound as a hypothesis where it matters).
* Python exceptions are the explicit error type `Err`; fallible functions
  return `Except Err _`.
* Python `unicode` strings are lists of Unicode code points (`List Nat`);
  `unicodedata.normalize` is external library code, see `nfc` below.
* The two source files in this snapshot disagree about the names and
  arities of a few `coapy.option` helpers used by `message.py`
  (`sorted_options`, `replace_unacceptable_options`, `first_match`,
  `UnrecognizedOption`, and the `is_request` argument of
  `encode_options`); those pieces of repository code are missing from
  the snapshot and are modelled from the spec, each marked with a
  `Modelled from the spec:` doc comment.
-/

namespace Coapy

/-- Diagnostics of MessageFormatError (message.py lines 93-135). -/
inductive MFDiag where
  | tokenTooLong
  | zeroLengthPayload
  | invalidOption
  | emptyMessageNotEmpty
  | unrecognizedCodeClass
deriving DecidableEq

/-- Diagnostics of MessageValidationError (message.py lines 41-90). -/
inductive MVDiag where
  | codeUndefined
  | codeInstanceConflict
  | codeTypeConflict
  | emptyMessageNotEmpty
  | proxyUriConflict
  | unrecognizedCriticalOption
deriving DecidableEq

/-- Python exceptions raised by the embedded code.  `structError` stands for
struct.error and for popping/indexing an exhausted byte sequence where the
source would fail inside `struct.unpack`; `indexError` for `bytearray.pop`
on an empty buffer. -/
inductive Err where
  | valueError
  | typeError
  | indexError
  | structError
  | optionValueLengthError
  | optionDecodeError
  | invalidRequestOptionError
  | invalidResponseOptionError
  | messageFormatError (diagnostic : MFDiag)
  | messageValidationError (diagnostic : MVDiag)
  | stopIteration
deriving DecidableEq

instance instDecidableEqExcept {ε α : Type} [DecidableEq ε] [DecidableEq α] :
    DecidableEq (Except ε α) := fun a b =>
  match a, b with
  | .error e1, .error e2 =>
    if h : e1 = e2 then .isTrue (by rw [h])
    else .isFalse (fun hc => h (Except.error.inj hc))
  | .ok v1, .ok v2 =>
    if h : v1 = v2 then .isTrue (by rw [h])
    else .isFalse (fun hc => h (Except.ok.inj hc))
  | .error _, .ok _ => .isFalse (fun hc => Except.noConfusion hc)
  | .ok _, .error _ => .isFalse (fun hc => Except.noConfusion hc)

/-- Byte strings. -/
abbrev Bytes := List Nat

/-- The n-byte big-endian representation of `v` (`struct.pack` of a
fixed-width big-endian unsigned integer keeps exactly the low n bytes;
for the widths used here the source checks the range before/around use). -/
def packBE : Nat → Nat → Bytes
  | 0, _ => []
  | n + 1, v => packBE n (v / 256) ++ [v % 256]

/-- struct.pack of format !Q (option.py line 242): 8-byte big-endian;
struct.error when the value does not fit. -/
def struct_pack_Q (v : Nat) : Except Err Bytes :=
  if v < 2 ^ 64 then .ok (packBE 8 v) else .error .structError

/-- Big-endian value of a byte string: the loop of format_uint._from_packed
(option.py lines 248-252), `value = value * 256 + byte`. -/
def beVal (data : Bytes) : Nat :=
  data.foldl (fun value b => value * 256 + b) 0

/-- UTF-8 encoding of one Unicode code point. -/
def utf8EncodeChar (c : Nat) : Bytes :=
  if c < 0x80 then [c]
  else if c < 0x800 then
    [0xC0 ||| (c >>> 6), 0x80 ||| (c &&& 0x3F)]
  else if c < 0x10000 then
    [0xE0 ||| (c >>> 12), 0x80 ||| ((c >>> 6) &&& 0x3F), 0x80 ||| (c &&& 0x3F)]
  else
    [0xF0 ||| (c >>> 18), 0x80 ||| ((c >>> 12) &&& 0x3F),
     0x80 ||| ((c >>> 6) &&& 0x3F), 0x80 ||| (c &&& 0x3F)]

/-- UTF-8 encoding of a code-point sequence (Python str.encode of utf-8). -/
def utf8Encode (cps : List Nat) : Bytes :=
  (cps.map utf8EncodeChar).flatten

/-- Whether a byte is a UTF-8 continuation byte. -/
def isCont (b : Nat) : Bool :=
  0x80 ≤ b && b < 0xC0

/-- UTF-8 decoding (Python bytes.decode of utf-8); `valueError` models
UnicodeDecodeError on malformed input. -/
def utf8Decode : Bytes → Except Err (List Nat)
  | [] => .ok []
  | b :: rest =>
    if b < 0x80 then (utf8Decode rest).map (b :: ·)
    else if b < 0xC0 then .error .valueError
    else if b < 0xE0 then
      match rest with
      | c1 :: rest2 =>
        if isCont c1 then
          (utf8Decode rest2).map ((((b &&& 0x1F) <<< 6) ||| (c1 &&& 0x3F)) :: ·)
        else .error .valueError
      | [] => .error .valueError
    else if b < 0xF0 then
      match rest with
      | c1 :: c2 :: rest2 =>
        if isCont c1 && isCont c2 then
          (utf8Decode rest2).map
            ((((b &&& 0x0F) <<< 12) ||| ((c1 &&& 0x3F) <<< 6) ||| (c2 &&& 0x3F)) :: ·)
        else .error .valueError
      | _ => .error .valueError
    else
      match rest with
      | c1 :: c2 :: c3 :: rest2 =>
        if isCont c1 && isCont c2 && isCont c3 then
          (utf8Decode rest2).map
            ((((b &&& 0x07) <<< 18) ||| ((c1 &&& 0x3F) <<< 12) |||
              ((c2 &&& 0x3F) <<< 6) ||| (c3 &&& 0x3F)) :: ·)
        else .error .valueError
      | _ => .error .valueError

/-- Modelled from the spec: unicodedata.normalize of NFC (option.py line 299)
is Python standard-library code not part of this repository; the spec (4.1)
says text is normalized to composed form before UTF-8 encoding.  NFC is
idempotent and is the identity on the code-point sequences appearing in this
development (ASCII); it is modelled as the identity map, and no theorem below
depends on its behaviour beyond idempotence on already-canonical values,
which is carried as a hypothesis. -/
def nfc (cps : List Nat) : List Nat := cps

/-- Option value formats (option.py classes format_empty, format_opaque,
format_uint, format_string).  `opaq` is format_opaque (renamed). -/
inductive OptFormat where
  | empty
  | opaq (max_length min_length : Nat)
  | uint (max_length : Nat)
  | text (max_length min_length : Nat)
deriving DecidableEq

/-- Unpacked option values: bytes for empty/opaque formats, an unsigned
integer for format_uint, a code-point sequence for format_string. -/
inductive OptValue where
  | bytes (b : Bytes)
  | uint (n : Nat)
  | text (cps : List Nat)
deriving DecidableEq

/-- min_length of a format (option.py constructors). -/
def format_min_length : OptFormat → Nat
  | .empty => 0
  | .opaq _ mn => mn
  | .uint _ => 0
  | .text _ mn => mn

/-- max_length of a format (option.py constructors). -/
def format_max_length : OptFormat → Nat
  | .empty => 0
  | .opaq mx _ => mx
  | .uint mx => mx
  | .text mx _ => mx

/-- The isinstance check of _format_base.to_packed against the format's
unpacked type. -/
def format_type_ok : OptFormat → OptValue → Bool
  | .empty, .bytes _ => true
  | .opaq _ _, .bytes _ => true
  | .uint _, .uint _ => true
  | .text _ _, .text _ => true
  | _, _ => false

/-- format_uint._to_packed (option.py lines 239-246): zero packs to the
empty string, otherwise pack 8 bytes big-endian and strip leading zero
bytes (the source scans for the first nonzero byte; for a nonzero value
that equals dropping the leading zeros). -/
def uint_to_packed (value : Nat) : Except Err Bytes :=
  if value = 0 then .ok []
  else (struct_pack_Q value).map (fun pv => pv.dropWhile (· == 0))

/-- The _to_packed dispatch of the four format classes. -/
def format_to_packed_inner : OptFormat → OptValue → Except Err Bytes
  | .empty, .bytes b => .ok b
  | .opaq _ _, .bytes b => .ok b
  | .uint _, .uint n => uint_to_packed n
  | .text _ _, .text cps => .ok (utf8Encode (nfc cps))
  | _, _ => .error .valueError

/-- _format_base.to_packed (option.py lines 123-140): type check, pack,
then bound the packed length by min_length/max_length. -/
def format_to_packed (f : OptFormat) (value : OptValue) : Except Err Bytes :=
  if format_type_ok f value = false then .error .valueError
  else
    match format_to_packed_inner f value with
    | .error e => .error e
    | .ok pv =>
      if pv.length < format_min_length f ∨ format_max_length f < pv.length then
        .error .optionValueLengthError
      else .ok pv

/-- _format_base.from_packed (option.py lines 151-169): bound the packed
length, then unpack via the format-specific _from_packed. -/
def format_from_packed (f : OptFormat) (packed : Bytes) : Except Err OptValue :=
  if packed.length < format_min_length f ∨ format_max_length f < packed.length then
    .error .optionValueLengthError
  else
    match f with
    | .empty => .ok (.bytes packed)
    | .opaq _ _ => .ok (.bytes packed)
    | .uint _ => .ok (.uint (beVal packed))
    | .text _ _ => (utf8Decode packed).map .text

/-- to_packed of the utility instance _optionint_helper = format_uint(2)
(option.py line 515), specialised to its integer argument. -/
def optionint_to_packed (v : Nat) : Except Err Bytes :=
  match format_to_packed (.uint 2) (.uint v) with
  | .error e => .error e
  | .ok b => .ok b

/-- from_packed of _optionint_helper = format_uint(2), specialised. -/
def optionint_from_packed (b : Bytes) : Except Err Nat :=
  if 2 < b.length then .error .optionValueLengthError
  else .ok (beVal b)

/-- Left-pad a byte string with zero bytes up to length n (the while loops
of option_encoding, option.py lines 263-264 and 268-269). -/
def padLeft (n : Nat) (l : Bytes) : Bytes :=
  List.replicate (n - l.length) 0 ++ l

/-- format_uint.option_encoding (option.py lines 254-270): encode a
non-negative integer as a 4-bit nibble plus 0-2 extension bytes. -/
def option_encoding (value : Int) : Except Err (Nat × Bytes) :=
  if value < 0 then .error .valueError
  else if value < 13 then .ok (value.toNat, [])
  else if value < 269 then
    match optionint_to_packed (value.toNat - 13) with
    | .error e => .error e
    | .ok ovx => .ok (13, padLeft 1 ovx)
  else
    match optionint_to_packed (value.toNat - 269) with
    | .error e => .error e
    | .ok ovx => .ok (14, padLeft 2 ovx)

/-- format_uint.option_decoding (option.py lines 272-279). -/
def option_decoding (ov : Nat) (data : Bytes) : Except Err (Nat × Bytes) :=
  if 15 ≤ ov then .error .valueError
  else if ov = 14 then
    match optionint_from_packed (data.take 2) with
    | .error e => .error e
    | .ok v => .ok (269 + v, data.drop 2)
  else if ov = 13 then
    match optionint_from_packed (data.take 1) with
    | .error e => .error e
    | .ok v => .ok (13 + v, data.drop 1)
  else .ok (ov, data)

/-- is_critical_option (option.py lines 396-403), used truthily. -/
def is_critical_option (number : Nat) : Bool :=
  number &&& 1 ≠ 0

/-- is_unsafe_option (option.py lines 406-412), used truthily. -/
def is_unsafe_option (number : Nat) : Bool :=
  number &&& 2 ≠ 0

/-- is_no_cache_key_option (option.py lines 415-423). -/
def is_no_cache_key_option (number : Nat) : Bool :=
  0x1c = (number &&& 0x1e)

/-- A registered option type: number, (request, response) cardinality,
and value format (class attributes of the UrOption subclasses). -/
structure OptType where
  number : Nat
  repeatable : Option Bool × Option Bool
  format : OptFormat
deriving DecidableEq

/-- The option registry populated by the UrOption subclass definitions at
the bottom of option.py (lines 596-690): IfMatch 1, UriHost 3, ETag 4,
IfNoneMatch 5, UriPort 7, LocationPath 8, UriPath 11, ContentFormat 12,
MaxAge 14, UriQuery 15, Accept 17, LocationQuery 20, ProxyUri 35,
ProxyScheme 39, Size1 60.  Python None/False/True cardinality becomes
none/some false/some true. -/
def find_option (number : Nat) : Option OptType :=
  match number with
  | 1 => some ⟨1, (some true, none), .opaq 8 0⟩
  | 3 => some ⟨3, (some false, none), .text 255 1⟩
  | 4 => some ⟨4, (some true, some false), .opaq 8 1⟩
  | 5 => some ⟨5, (some false, none), .empty⟩
  | 7 => some ⟨7, (some false, none), .uint 2⟩
  | 8 => some ⟨8, (none, some true), .text 255 0⟩
  | 11 => some ⟨11, (some true, none), .text 255 0⟩
  | 12 => some ⟨12, (some false, some false), .uint 2⟩
  | 14 => some ⟨14, (none, some false), .uint 4⟩
  | 15 => some ⟨15, (some true, none), .text 255 0⟩
  | 17 => some ⟨17, (some false, none), .uint 2⟩
  | 20 => some ⟨20, (none, some true), .text 255 0⟩
  | 35 => some ⟨35, (some false, none), .text 1034 1⟩
  | 39 => some ⟨39, (some false, none), .text 255 1⟩
  | 60 => some ⟨60, (some false, some false), .uint 4⟩
  | _ => none

/-- An option instance.  `known = true` for instances of a registered
UrOption subclass; `known = false` for the generic unknown-option wrapper
(UnknownOption in option.py, called UnrecognizedOption by message.py). -/
structure OptInstance where
  number : Nat
  known : Bool
  value : OptValue
deriving DecidableEq

/-- The format of UnknownOption (option.py line 579): format_opaque(1034). -/
def unknown_format : OptFormat := .opaq 1034 0

/-- The format attribute of an option instance. -/
def formatOf (o : OptInstance) : OptFormat :=
  if o.known then
    match find_option o.number with
    | some ty => ty.format
    | none => unknown_format
  else unknown_format

/-- The repeatable attribute of an option instance; UnknownOption declares
repeatable = (True, True) (option.py line 578). -/
def repeatableOf (o : OptInstance) : Option Bool × Option Bool :=
  if o.known then
    match find_option o.number with
    | some ty => ty.repeatable
    | none => (none, none)
  else (some true, some true)

/-- UrOption.valid_in_request (option.py lines 476-477). -/
def valid_in_request (o : OptInstance) : Bool :=
  (repeatableOf o).1.isSome

/-- UrOption.valid_multiple_in_request (option.py lines 479-480). -/
def valid_multiple_in_request (o : OptInstance) : Bool :=
  (repeatableOf o).1 = some true

/-- UrOption.valid_in_response (option.py lines 482-483). -/
def valid_in_response (o : OptInstance) : Bool :=
  (repeatableOf o).2.isSome

/-- UrOption.valid_multiple_in_response (option.py lines 485-486). -/
def valid_multiple_in_response (o : OptInstance) : Bool :=
  (repeatableOf o).2 = some true

/-- UrOption.packed_value (option.py lines 505-506). -/
def packed_value (o : OptInstance) : Except Err Bytes :=
  format_to_packed (formatOf o) o.value

/-- Constructing an option instance from packed bytes during decode
(decode_options, option.py lines 567-571): a registered type unpacks with
its own format; otherwise UnknownOption(number, packed_value=packed), whose
constructor rejects numbers above 65535 (option.py lines 585-591). -/
def option_from_packed (number : Nat) (packed : Bytes) : Except Err OptInstance :=
  match find_option number with
  | some ty =>
    match format_from_packed ty.format packed with
    | .error e => .error e
    | .ok v => .ok ⟨number, true, v⟩
  | none =>
    if number ≤ 65535 then
      match format_from_packed unknown_format packed with
      | .error e => .error e
      | .ok v => .ok ⟨number, false, v⟩
    else .error .valueError

/-- A canonical option instance: an instance of a registered option type
whose value survives the pack/unpack round-trip of its format.  This is
the state in which UrOption stores every assigned value (option.py lines
497-498: value = format.from_packed(format.to_packed(value))). -/
def canonical_option (o : OptInstance) : Bool :=
  o.known &&
    match find_option o.number with
    | none => false
    | some ty =>
      match format_to_packed ty.format o.value with
      | .error _ => false
      | .ok pv => decide (format_from_packed ty.format pv = .ok o.value)

/-- The key order used to sort options by number (Python sorted with
key=number; option.py line 521). -/
def option_key_le (a b : OptInstance) : Prop :=
  a.number ≤ b.number

instance : DecidableRel option_key_le :=
  fun a b => Nat.decLe a.number b.number

instance : IsTotal OptInstance option_key_le :=
  ⟨fun a b => Nat.le_total a.number b.number⟩

instance : IsTrans OptInstance option_key_le :=
  ⟨fun _ _ _ => Nat.le_trans⟩

instance : IsRefl OptInstance option_key_le :=
  ⟨fun a => Nat.le_refl a.number⟩

/-- Modelled from the spec: coapy.option.sorted_options, called by
Message._set_options and Message._sort_options (message.py lines 486, 491)
but absent from the option.py of this snapshot.  Spec 3 (options): kept
sorted by number with a stable sort preserving insertion order among equal
numbers (Python's builtin stable sort, as in encode_options; modelled with
insertion sort, which is stable). -/
def sorted_options (l : List OptInstance) : List OptInstance :=
  List.insertionSort option_key_le l

/-- The per-option body of encode_options (option.py lines 522-538):
check the cardinality rule for the message role, then emit the
delta/length nibbles, extension bytes, and packed value. -/
def encode_options_loop (is_request : Bool) :
    List OptInstance → Nat → Except Err Bytes
  | [], _ => .ok []
  | opt :: rest, last_number =>
    let delta : Int := (opt.number : Int) - (last_number : Int)
    if is_request = true ∧
        (valid_in_request opt = false ∨
          (delta = 0 ∧ valid_multiple_in_request opt = false)) then
      .error .invalidRequestOptionError
    else if is_request = false ∧
        (valid_in_response opt = false ∨
          (delta = 0 ∧ valid_multiple_in_response opt = false)) then
      .error .invalidResponseOptionError
    else
      match packed_value opt with
      | .error e => .error e
      | .ok pvalue =>
        match option_encoding delta with
        | .error e => .error e
        | .ok (od, odx) =>
          match option_encoding (pvalue.length : Int) with
          | .error e => .error e
          | .ok (ol, olx) =>
            match encode_options_loop is_request rest opt.number with
            | .error e => .error e
            | .ok tailbs =>
              .ok ((((od <<< 4) ||| ol) :: (odx ++ olx ++ pvalue)) ++ tailbs)

/-- encode_options (option.py lines 518-539): sort the options by number
and encode each with the delta from its predecessor (starting at 0).
The message.py of this snapshot calls this function without the
`is_request` argument; the role is supplied by the caller below as the
spec (4.3) describes. -/
def encode_options (options : List OptInstance) (is_request : Bool) :
    Except Err Bytes :=
  encode_options_loop is_request (sorted_options options) 0

/-- _decode_one_option (option.py lines 542-553): `.ok (none, data)` is the
source's `(None, None, data)` payload-marker result. -/
def _decode_one_option (data : Bytes) :
    Except Err (Option (Nat × Nat) × Bytes) :=
  match data with
  | [] => .error .structError
  | odl :: rest =>
    if odl = 0xFF then .ok (none, odl :: rest)
    else
      let od := odl >>> 4
      let ol := odl &&& 0x0F
      if od = 15 ∨ ol = 15 then .error .optionDecodeError
      else
        match option_decoding od rest with
        | .error e => .error e
        | .ok (delta, rest2) =>
          match option_decoding ol rest2 with
          | .error e => .error e
          | .ok (length, rest3) => .ok (some (delta, length), rest3)

theorem option_decoding_length {ov : Nat} {data rest : Bytes} {v : Nat}
    (h : option_decoding ov data = .ok (v, rest)) : rest.length ≤ data.length := by
  unfold option_decoding at h
  split at h
  · exact absurd h (by simp)
  · split at h
    · split at h
      · exact absurd h (by simp)
      · simp only [Except.ok.injEq, Prod.mk.injEq] at h
        simp [← h.2, List.length_drop]
    · split at h
      · split at h
        · exact absurd h (by simp)
        · simp only [Except.ok.injEq, Prod.mk.injEq] at h
          simp [← h.2, List.length_drop]
      · simp only [Except.ok.injEq, Prod.mk.injEq] at h
        simp [← h.2]

theorem _decode_one_option_length {data rest : Bytes} {x : Nat × Nat}
    (h : _decode_one_option data = .ok (some x, rest)) :
    rest.length < data.length := by
  unfold _decode_one_option at h
  match data with
  | [] => exact absurd h (by simp)
  | odl :: tl =>
    simp only at h
    split at h
    · exact absurd h (by simp)
    · split at h
      · exact absurd h (by simp)
      · split at h
        · exact absurd h (by simp)
        · rename_i h1
          split at h
          · exact absurd h (by simp)
          · rename_i h2
            simp only [Except.ok.injEq, Prod.mk.injEq] at h
            have l1 := option_decoding_length h1
            have l2 := option_decoding_length h2
            rw [h.2] at l2
            simp only [List.length_cons]
            omega

/-- The while loop of decode_options (option.py lines 556-573), with the
running option number made explicit.  The recursion is bounded by a fuel
parameter that decode_options instantiates with the buffer length; each
iteration consumes at least one byte (_decode_one_option_length), so the
fuel-exhausted arm is unreachable from decode_options. -/
def decode_options_loop : Nat → Bytes → Nat → Except Err (List OptInstance × Bytes)
  | _, [], _ => .ok ([], [])
  | 0, b :: tl, _ => .ok ([], b :: tl)
  | fuel + 1, b :: tl, option_number =>
    match _decode_one_option (b :: tl) with
    | .error e => .error e
    | .ok (none, d) => .ok ([], d)
    | .ok (some (delta, length), d) =>
      let packed := d.take length
      let d2 := d.drop length
      match option_from_packed (option_number + delta) packed with
      | .error e => .error e
      | .ok opt =>
        match decode_options_loop fuel d2 (option_number + delta) with
        | .error e => .error e
        | .ok (options, rem) => .ok (opt :: options, rem)

/-- decode_options (option.py lines 556-573).  The source's unused
`is_request` parameter is dropped. -/
def decode_options (data : Bytes) : Except Err (List OptInstance × Bytes) :=
  decode_options_loop data.length data 0

/-- The Python class of a message instance: Message itself (`plain`),
Request, or one of the response classes.  Class3Response subclasses
Message directly, not Response (message.py line 958). -/
inductive MClass where
  | plain
  | request
  | successResponse
  | class3Response
  | clientErrorResponse
  | serverErrorResponse
deriving DecidableEq

/-- isinstance(self, Request). -/
def isRequestClass (c : MClass) : Bool :=
  c = .request

/-- isinstance(self, Response): SuccessResponse, ClientErrorResponse and
ServerErrorResponse subclass Response; Class3Response does not. -/
def isResponseClass (c : MClass) : Bool :=
  c = .successResponse ∨ c = .clientErrorResponse ∨ c = .serverErrorResponse

/-- isinstance(self, ctor) for the classes stored in the code registries:
every message class is an instance of Message (`plain`). -/
def isInstanceOf (c target : MClass) : Bool :=
  c = target ∨ target = .plain

/-- The exact-code registry __CodeRegistry as populated by the
Message.RegisterCode calls (message.py lines 821, 898-901, 951-955,
1030-1039, 1083-1088), mapping a (class, detail) code to the constructor. -/
def code_registry (code : Nat × Nat) : Option MClass :=
  match code with
  | (0, 0) => some .plain
  | (0, 1) | (0, 2) | (0, 3) | (0, 4) => some .request
  | (2, 1) | (2, 2) | (2, 3) | (2, 4) | (2, 5) => some .successResponse
  | (4, 0) | (4, 1) | (4, 2) | (4, 3) | (4, 4) | (4, 5) | (4, 6)
  | (4, 12) | (4, 13) | (4, 15) => some .clientErrorResponse
  | (5, 0) | (5, 1) | (5, 2) | (5, 3) | (5, 4) | (5, 5) => some .serverErrorResponse
  | _ => none

/-- The class-level fallback registry __CodeClassRegistry as populated by
RegisterClassCode (message.py lines 209-225, 970): class 0 Request,
class 2 SuccessResponse, class 3 Class3Response, class 4
ClientErrorResponse, class 5 ServerErrorResponse. -/
def code_class_registry (clazz : Nat) : Option MClass :=
  match clazz with
  | 0 => some .request
  | 2 => some .successResponse
  | 3 => some .class3Response
  | 4 => some .clientErrorResponse
  | 5 => some .serverErrorResponse
  | _ => none

/-- Message._type_for_code (message.py lines 264-269). -/
def _type_for_code (code : Nat × Nat) : Option MClass :=
  match code_registry code with
  | some ctor => some ctor
  | none => code_class_registry code.1

/-- The argument accepted by Message.code_as_tuple: an int, a tuple of
ints, or anything else. -/
inductive PyCodeArg where
  | int (n : Int)
  | tup (xs : List Int)
  | other
deriving DecidableEq

/-- Message.code_as_tuple (message.py lines 371-388). -/
def code_as_tuple : PyCodeArg → Except Err (Nat × Nat)
  | .tup [clazz, detail] =>
    if ¬ (0 ≤ clazz ∧ clazz ≤ 7) then .error .valueError
    else if ¬ (0 ≤ detail ∧ detail ≤ 31) then .error .valueError
    else .ok (clazz.toNat, detail.toNat)
  | .tup _ => .error .valueError
  | .int n =>
    if n < 0 ∨ 255 < n then .error .valueError
    else .ok (n.toNat >>> 5, n.toNat &&& 0x1F)
  | .other => .error .typeError

/-- Message.code_as_integer (message.py lines 390-399). -/
def code_as_integer (code : PyCodeArg) : Except Err Nat :=
  match code_as_tuple code with
  | .error e => .error e
  | .ok (clazz, detail) => .ok ((clazz <<< 5) ||| detail)

/-- A CoAP message.  `cls` is the Python class of the instance; the
remaining fields are the instance attributes (message.py lines 157-560).
Endpoint fields are kept outside (see set_source_endpoint below). -/
structure Message where
  cls : MClass
  messageType : Nat
  code : Option (Nat × Nat)
  messageID : Option Nat
  token : Bytes
  options : List OptInstance
  payload : Option Bytes
deriving DecidableEq

/-- The argument accepted by the token setter: bytes or anything else. -/
inductive PyBytesArg where
  | bytes (b : Bytes)
  | other
deriving DecidableEq

/-- Message._set_token (message.py lines 462-467): TypeError for
non-bytes, ValueError beyond 8 octets. -/
def set_token : PyBytesArg → Except Err Bytes
  | .other => .error .typeError
  | .bytes token =>
    if 8 < token.length then .error .valueError
    else .ok token

/-- Message._set_payload (message.py lines 526-531): an empty payload is
normalized to None. -/
def set_payload : Option Bytes → Option Bytes
  | none => none
  | some p => if p.length = 0 then none else some p

/-- Message.__init__ (message.py lines 535-560) invoked with keyword
arguments: pick the type from the flags, run each provided value through
the corresponding property setter.  Options are sorted on assignment by
Message._set_options (message.py lines 485-486). -/
def message_init (cls : MClass) (confirmable acknowledgement reset : Bool)
    (code : Option (Nat × Nat)) (messageID : Option Nat)
    (token : Option Bytes) (options : Option (List OptInstance))
    (payload : Option Bytes) : Except Err Message :=
  let mtype : Nat :=
    if confirmable then 0 else if acknowledgement then 2 else if reset then 3 else 1
  let codeRes : Except Err (Option (Nat × Nat)) :=
    match code with
    | none => .ok none
    | some (a, b) =>
      match code_as_tuple (.tup [(a : Int), (b : Int)]) with
      | .error e => .error e
      | .ok c => .ok (some c)
  match codeRes with
  | .error e => .error e
  | .ok codeVal =>
    let midRes : Except Err (Option Nat) :=
      match messageID with
      | none => .ok none
      | some i => if 65535 < i then .error .valueError else .ok (some i)
    match midRes with
    | .error e => .error e
    | .ok midVal =>
      let tokenRes : Except Err Bytes :=
        match token with
        | none => .ok []
        | some t => set_token (.bytes t)
      match tokenRes with
      | .error e => .error e
      | .ok tokenVal =>
        let optionsVal : List OptInstance :=
          match options with
          | none => []
          | some l => sorted_options l
        .ok { cls := cls, messageType := mtype, code := codeVal,
              messageID := midVal, token := tokenVal, options := optionsVal,
              payload := set_payload payload }

/-- Message.packed_code (message.py lines 421-430): ValueError when the
code is unset. -/
def packed_code (m : Message) : Except Err Nat :=
  match m.code with
  | none => .error .valueError
  | some (a, b) => code_as_integer (.tup [(a : Int), (b : Int)])

/-- struct.pack of format !H: 2-byte big-endian, struct.error when out of
range. -/
def struct_pack_H (v : Nat) : Except Err Bytes :=
  if 65535 < v then .error .structError
  else .ok [v >>> 8, v &&& 0xFF]

/-- Message.to_packed (message.py lines 562-578).  The options are
encoded only when the list is non-empty; the payload marker 0xFF is
emitted only before a (non-empty) payload.  The source calls
encode_options without the role argument its option.py requires; the
role passed here is the message's, per spec 4.3. -/
def to_packed (m : Message) : Except Err Bytes :=
  let vttkl := (1 <<< 6) ||| (m.messageType <<< 4) ||| (0x0F &&& m.token.length)
  if 255 < vttkl then .error .structError
  else
    match packed_code m with
    | .error e => .error e
    | .ok pc =>
      if 255 < pc then .error .structError
      else
        match m.messageID with
        | none => .error .structError
        | some mid =>
          match struct_pack_H mid with
          | .error e => .error e
          | .ok midBytes =>
            match (if m.options.isEmpty then .ok [] else
                encode_options m.options (isRequestClass m.cls) :
                Except Err Bytes) with
            | .error e => .error e
            | .ok optBytes =>
              let payloadPart : Bytes :=
                match m.payload with
                | none => []
                | some p => if p.length = 0 then [] else 0xFF :: p
              .ok (vttkl :: pc :: (midBytes ++ m.token ++ optBytes ++ payloadPart))

/-- The body of Message.from_packed after the version check (message.py
lines 612-655); every exit of this part either raises or returns a
message. -/
def from_packed_tail (vttkl : Nat) (data0 : Bytes) : Except Err Message :=
  let message_type := 0x03 &&& (vttkl >>> 4)
  let tkl := 0x0F &&& vttkl
  match data0 with
  | [] => .error .indexError
  | b1 :: data1 =>
    match code_as_tuple (.int (b1 : Int)) with
    | .error e => .error e
    | .ok code =>
      match data1 with
      | [] => .error .indexError
      | b2 :: data2 =>
        match data2 with
        | [] => .error .indexError
        | b3 :: data =>
          let message_id := (b2 <<< 8) ||| b3
          if 9 ≤ tkl then .error (.messageFormatError .tokenTooLong)
          else if code = (0, 0) ∧ (tkl ≠ 0 ∨ 0 < data.length) then
            .error (.messageFormatError .emptyMessageNotEmpty)
          else
            let token := data.take tkl
            match decode_options (data.drop tkl) with
            | .error .optionDecodeError => .error (.messageFormatError .invalidOption)
            | .error e => .error e
            | .ok (options, remainder) =>
              let payloadRes : Except Err (Option Bytes) :=
                match remainder with
                | [] => .ok none
                | r0 :: rtail =>
                  if r0 ≠ 0xFF then .error (.messageFormatError .invalidOption)
                  else if rtail.length = 0 then
                    .error (.messageFormatError .zeroLengthPayload)
                  else .ok (some rtail)
              match payloadRes with
              | .error e => .error e
              | .ok payload =>
                match _type_for_code code with
                | none => .error (.messageFormatError .unrecognizedCodeClass)
                | some ctor =>
                  message_init ctor (message_type = 0) (message_type = 2)
                    (message_type = 3) (some code) (some message_id)
                    (some token) (some options) payload

/-- Message.from_packed (message.py lines 580-655).  `.ok none` is the
source's `return None` for a version mismatch, the only place the
function returns without a message; the empty input fails on the first
`bytearray.pop`. -/
def from_packed (packed_message : Bytes) : Except Err (Option Message) :=
  match packed_message with
  | [] => .error .indexError
  | vttkl :: data =>
    if vttkl >>> 6 ≠ 1 then .ok none
    else
      match from_packed_tail vttkl data with
      | .error e => .error e
      | .ok m => .ok (some m)

/-- Endpoint identities are opaque; Python object identity (`is`) is
modelled as equality of an opaque id. -/
abbrev Endpoint := Nat

/-- Message._set_source_endpoint (message.py lines 659-667): given the
current field value and the assigned value, return the new field value or
the raised error.  Assigning None with the field unset returns early;
otherwise None fails the isinstance check with TypeError; a different
endpoint than the current one raises ValueError. -/
def set_source_endpoint (current : Option Endpoint) (ep : Option Endpoint) :
    Except Err (Option Endpoint) :=
  if ep = none ∧ current = none then .ok current
  else
    match ep with
    | none => .error .typeError
    | some e =>
      if current ≠ none ∧ current ≠ some e then .error .valueError
      else .ok (some e)

/-- Message._set_destination_endpoint (message.py lines 686-694), the same
logic for the destination field. -/
def set_destination_endpoint (current : Option Endpoint) (ep : Option Endpoint) :
    Except Err (Option Endpoint) :=
  if ep = none ∧ current = none then .ok current
  else
    match ep with
    | none => .error .typeError
    | some e =>
      if current ≠ none ∧ current ≠ some e then .error .valueError
      else .ok (some e)

/-- Python truthiness of the payload attribute (None and empty bytes are
falsy). -/
def payloadTruthy (m : Message) : Bool :=
  match m.payload with
  | none => false
  | some p => p ≠ []

/-- Modelled from the spec: coapy.option.replace_unacceptable_options,
called by Message.validate (message.py line 747) but absent from the
option.py of this snapshot.  Spec 4.6: an option invalid for the message
role is converted to its raw/unknown form rather than dropped. -/
def replace_unacceptable_options (l : List OptInstance) (is_request : Bool) :
    List OptInstance :=
  l.map fun o =>
    if (if is_request then valid_in_request o else valid_in_response o) then o
    else
      ⟨o.number, false,
        .bytes (match packed_value o with | .ok b => b | .error _ => [])⟩

/-- Modelled from the spec: UrOption.first_match, called by
Message.validate (message.py line 751) but absent from the option.py of
this snapshot: the first option in the list that is an instance of the
given registered option class, identified by its number. -/
def first_match_number (l : List OptInstance) (number : Nat) : Option OptInstance :=
  l.find? fun o => o.known && (o.number == number)

/-- Whether an option is an instance of UriHost, UriPort, UriPath or
UriQuery (the bad_opts filter of Message.validate, lines 753-758). -/
def isUriStarOption (o : OptInstance) : Bool :=
  o.known && (o.number == 3 || o.number == 7 || o.number == 11 || o.number == 15)

/-- The tail of Message.validate after the code/type checks (message.py
lines 746-765): replace role-invalid options, re-sort, check the
Proxy-Uri conflict for requests, then reject any unrecognized critical
option. -/
def validate_tail (m : Message) : Except Err Unit :=
  let opts0 :=
    if isResponseClass m.cls || isRequestClass m.cls then
      replace_unacceptable_options m.options (isRequestClass m.cls)
    else m.options
  let opts := sorted_options opts0
  let proxyCheck : Except Err Unit :=
    if isRequestClass m.cls then
      match first_match_number opts 35 with
      | some _ =>
        if (opts.filter isUriStarOption).length ≠ 0 then
          .error (.messageValidationError .proxyUriConflict)
        else .ok ()
      | none => .ok ()
    else .ok ()
  match proxyCheck with
  | .error e => .error e
  | .ok _ =>
    match opts.find? (fun o => !o.known && is_critical_option o.number) with
    | some _ => .error (.messageValidationError .unrecognizedCriticalOption)
    | none => .ok ()

/-- Message.validate (message.py lines 712-765). -/
def validate (m : Message) : Except Err Unit :=
  match m.code with
  | none => .error (.messageValidationError .codeUndefined)
  | some code =>
    if code = (0, 0) then
      if m.token ≠ [] ∨ m.options ≠ [] ∨ payloadTruthy m then
        .error (.messageValidationError .emptyMessageNotEmpty)
      else validate_tail m
    else
      if m.messageType = 3 then
        .error (.messageValidationError .codeTypeConflict)
      else if m.messageType = 2 ∧ isResponseClass m.cls = false then
        .error (.messageValidationError .codeTypeConflict)
      else if m.messageType ≠ 2 ∧ isResponseClass m.cls = false ∧
          isRequestClass m.cls = false then
        .error (.messageValidationError .codeTypeConflict)
      else
        match _type_for_code code with
        | some ctor =>
          if isInstanceOf m.cls ctor = false then
            .error (.messageValidationError .codeInstanceConflict)
          else validate_tail m
        | none => validate_tail m

/-- RetransmissionState (message.py lines 1210-1259): the iterator state
is the current timeout, the retransmission budget and the step counter.
Timeouts are rationals (the explicit-argument construction keeps them
exact). -/
structure RetransmissionState where
  timeout : ℚ
  max_retransmissions : Nat
  counter : Nat
deriving DecidableEq

/-- RetransmissionState.__init__ with explicit initial_timeout and
max_retransmissions (message.py lines 1229-1243; the
transmission-parameters path draws a random jitter and is outside this
embedding). -/
def retransmission_init (initial_timeout : ℚ) (max_retransmissions : Nat) :
    RetransmissionState :=
  { timeout := initial_timeout, max_retransmissions := max_retransmissions,
    counter := 0 }

/-- RetransmissionState.next (message.py lines 1253-1259): StopIteration
once the counter reaches the budget, else yield the current timeout and
double it. -/
def rs_next (s : RetransmissionState) : Except Err (ℚ × RetransmissionState) :=
  if s.max_retransmissions ≤ s.counter then .error .stopIteration
  else
    .ok (s.timeout,
      { timeout := s.timeout + s.timeout,
        max_retransmissions := s.max_retransmissions,
        counter := s.counter + 1 })

/-- Pull from the iterator up to n times, collecting the yielded values
and stopping at the first StopIteration (the state is returned alongside). -/
def rs_run : RetransmissionState → Nat → List ℚ × RetransmissionState
  | s, 0 => ([], s)
  | s, n + 1 =>
    match rs_next s with
    | .error _ => ([], s)
    | .ok (v, s2) =>
      match rs_run s2 n with
      | (vs, sfin) => (v :: vs, sfin)

/-! Helper lemmas about bytes and the integer helpers. -/

theorem lor_shiftLeft_eq_add (a b n : Nat) (h : b < 2 ^ n) :
    (a <<< n) ||| b = a * 2 ^ n + b := by
  rw [Nat.shiftLeft_eq, Nat.mul_comm, ← Nat.mul_add_lt_is_or h, Nat.mul_comm]

theorem packBE_zero (n : Nat) : packBE n 0 = List.replicate n 0 := by
  induction n with
  | zero => rfl
  | succ k ih =>
    rw [List.replicate_succ' (n := k)]
    simp [packBE, ih]

theorem packBE_small {v : Nat} (n : Nat) (h : v < 256) :
    packBE (n + 1) v = List.replicate n 0 ++ [v] := by
  simp [packBE, Nat.div_eq_of_lt h, packBE_zero, Nat.mod_eq_of_lt h]

theorem packBE_two {v : Nat} (n : Nat) (h : v < 65536) :
    packBE (n + 2) v = List.replicate n 0 ++ [v / 256, v % 256] := by
  have h1 : v / 256 < 256 := by omega
  show packBE (n + 1 + 1) v = _
  rw [packBE, packBE_small n h1]
  simp

theorem packBE_lt (n : Nat) : ∀ v, ∀ x ∈ packBE n v, x < 256 := by
  induction n with
  | zero => intro v x hx; simp [packBE] at hx
  | succ k ih =>
    intro v x hx
    simp only [packBE, List.mem_append, List.mem_singleton] at hx
    rcases hx with hx | hx
    · exact ih _ x hx
    · omega

theorem dropWhile_zero_replicate (n : Nat) (l : Bytes) :
    (List.replicate n 0 ++ l).dropWhile (· == 0) = l.dropWhile (· == 0) := by
  induction n with
  | zero => rfl
  | succ k ih => simpa [List.replicate_succ, List.dropWhile] using ih

theorem beVal_cons_zero (l : Bytes) : beVal (0 :: l) = beVal l := rfl

theorem beVal_replicate_zero (n : Nat) (l : Bytes) :
    beVal (List.replicate n 0 ++ l) = beVal l := by
  induction n with
  | zero => rfl
  | succ k ih => simpa [List.replicate_succ, beVal_cons_zero] using ih

theorem beVal_append_singleton (l : Bytes) (b : Nat) :
    beVal (l ++ [b]) = beVal l * 256 + b := by
  simp [beVal, List.foldl_append]

theorem beVal_packBE (n : Nat) : ∀ v < 256 ^ n, beVal (packBE n v) = v := by
  induction n with
  | zero => intro v hv; interval_cases v; rfl
  | succ k ih =>
    intro v hv
    have hd : v / 256 < 256 ^ k := by
      apply Nat.div_lt_of_lt_mul
      calc v < 256 ^ (k + 1) := hv
        _ = 256 * 256 ^ k := by ring
    rw [packBE, beVal_append_singleton, ih _ hd]
    omega

theorem beVal_dropWhile_zero (l : Bytes) :
    beVal (l.dropWhile (· == 0)) = beVal l := by
  induction l with
  | nil => rfl
  | cons b t ih =>
    by_cases hb : b = 0
    · subst hb
      simpa [List.dropWhile, beVal_cons_zero] using ih
    · have hb' : (b == 0) = false := by simpa using hb
      simp [List.dropWhile, hb']

theorem beVal_lt_aux (l : Bytes) (hl : ∀ x ∈ l, x < 256) :
    ∀ a, l.foldl (fun value b => value * 256 + b) a < (a + 1) * 256 ^ l.length := by
  induction l with
  | nil => intro a; simpa using Nat.lt_succ_self a
  | cons b t ih =>
    intro a
    have hb : b < 256 := hl b (by simp)
    have ht : ∀ x ∈ t, x < 256 := fun x hx => hl x (by simp [hx])
    calc (b :: t).foldl (fun value b => value * 256 + b) a
        = t.foldl (fun value b => value * 256 + b) (a * 256 + b) := by simp
      _ < (a * 256 + b + 1) * 256 ^ t.length := ih ht _
      _ ≤ ((a + 1) * 256) * 256 ^ t.length := by
          have : a * 256 + b + 1 ≤ (a + 1) * 256 := by omega
          exact Nat.mul_le_mul_right _ this
      _ = (a + 1) * 256 ^ (b :: t).length := by
          simp [List.length_cons, Nat.pow_succ]; ring

theorem beVal_lt (l : Bytes) (hl : ∀ x ∈ l, x < 256) :
    beVal l < 256 ^ l.length := by
  simpa [beVal] using beVal_lt_aux l hl 0

theorem uint_to_packed_eval {v : Nat} (hv : v < 2 ^ 64) :
    uint_to_packed v = .ok (if v = 0 then [] else (packBE 8 v).dropWhile (· == 0)) := by
  unfold uint_to_packed struct_pack_Q
  by_cases hv0 : v = 0
  · simp [hv0]
  · rw [if_neg hv0, if_neg hv0, if_pos hv]
    rfl

theorem uint_to_packed_ok {v : Nat} {b : Bytes} (h : uint_to_packed v = .ok b) :
    beVal b = v ∧ (∀ x ∈ b, x < 256) ∧
      b = (if v = 0 then [] else (packBE 8 v).dropWhile (· == 0)) := by
  have hv : v < 2 ^ 64 := by
    by_cases hv0 : v = 0
    · subst hv0; norm_num
    · by_contra hbig
      unfold uint_to_packed struct_pack_Q at h
      rw [if_neg hv0, if_neg hbig] at h
      exact absurd h (by simp [Except.map])
  rw [uint_to_packed_eval hv] at h
  simp only [Except.ok.injEq] at h
  subst h
  by_cases hv0 : v = 0
  · subst hv0
    exact ⟨by simp [beVal], by simp, rfl⟩
  · rw [if_neg hv0]
    refine ⟨?_, ?_, rfl⟩
    · rw [beVal_dropWhile_zero]
      exact beVal_packBE 8 v (by norm_num; omega)
    · intro x hx
      exact packBE_lt 8 v x ((List.dropWhile_sublist _).mem hx)

theorem format_to_packed_uint_ok {mx v : Nat} {b : Bytes}
    (h : format_to_packed (.uint mx) (.uint v) = .ok b) :
    beVal b = v ∧ b.length ≤ mx ∧ (∀ x ∈ b, x < 256) ∧
      b = (if v = 0 then [] else (packBE 8 v).dropWhile (· == 0)) := by
  unfold format_to_packed at h
  rw [show format_type_ok (.uint mx) (.uint v) = true from rfl] at h
  rw [if_neg (by simp)] at h
  simp only [format_to_packed_inner] at h
  cases hu : uint_to_packed v with
  | error e => rw [hu] at h; exact absurd h (by simp)
  | ok pv =>
    rw [hu] at h
    simp only [format_min_length, format_max_length] at h
    split at h
    · exact absurd h (by simp)
    · rename_i hlen
      simp only [Except.ok.injEq] at h
      subst h
      obtain ⟨h1, h2, h3⟩ := uint_to_packed_ok hu
      exact ⟨h1, by omega, h2, h3⟩

theorem format_to_packed_uint_of_le (mx v : Nat)
    (hv : v < 2 ^ 64)
    (hlen : ((if v = 0 then [] else (packBE 8 v).dropWhile (· == 0)) : Bytes).length ≤ mx) :
    format_to_packed (.uint mx) (.uint v) =
      .ok (if v = 0 then [] else (packBE 8 v).dropWhile (· == 0)) := by
  unfold format_to_packed
  rw [show format_type_ok (.uint mx) (.uint v) = true from rfl]
  rw [if_neg (by simp)]
  simp only [format_to_packed_inner]
  rw [uint_to_packed_eval hv]
  simp only [format_min_length, format_max_length]
  rw [if_neg (by omega)]

theorem optionint_to_packed_ok {w : Nat} {b : Bytes}
    (h : optionint_to_packed w = .ok b) :
    w < 65536 ∧ beVal b = w ∧ b.length ≤ 2 ∧
      b = (if w = 0 then [] else (packBE 8 w).dropWhile (· == 0)) := by
  unfold optionint_to_packed at h
  cases hf : format_to_packed (.uint 2) (.uint w) with
  | error e => rw [hf] at h; exact absurd h (by simp)
  | ok pv =>
    rw [hf] at h
    simp only [Except.ok.injEq] at h
    subst h
    obtain ⟨h1, h2, h3, h4⟩ := format_to_packed_uint_ok hf
    refine ⟨?_, h1, h2, h4⟩
    have hv1 := beVal_lt pv h3
    have hv2 : beVal pv < 256 ^ 2 :=
      lt_of_lt_of_le hv1 (Nat.pow_le_pow_right (by norm_num) h2)
    omega

theorem dropWhile_packBE8_small {w : Nat} (h : w < 256) :
    (packBE 8 w).dropWhile (· == 0) = if w = 0 then [] else [w] := by
  rw [packBE_small 7 h, dropWhile_zero_replicate]
  by_cases hw : w = 0
  · subst hw; rfl
  · have hb : (w == 0) = false := by simpa using hw
    simp [List.dropWhile, hb, hw]

theorem dropWhile_packBE8_two {w : Nat} (h : w < 65536) :
    (packBE 8 w).dropWhile (· == 0) =
      if w / 256 = 0 then (if w % 256 = 0 then [] else [w % 256])
      else [w / 256, w % 256] := by
  rw [packBE_two 6 h, dropWhile_zero_replicate]
  by_cases hq : w / 256 = 0
  · have hq' : (w / 256 == 0) = true := by simpa using hq
    by_cases hr : w % 256 = 0
    · have hr' : (w % 256 == 0) = true := by simpa using hr
      simp [List.dropWhile, hq', hr', hq, hr]
    · have hr' : (w % 256 == 0) = false := by simpa using hr
      simp [List.dropWhile, hq', hr', hq, hr]
  · have hq' : (w / 256 == 0) = false := by simpa using hq
    simp [List.dropWhile, hq', hq]

theorem optionint_to_packed_small {w : Nat} (h : w < 256) :
    optionint_to_packed w = .ok (if w = 0 then [] else [w]) := by
  have h64 : w < 2 ^ 64 := by norm_num; omega
  unfold optionint_to_packed
  rw [format_to_packed_uint_of_le 2 w h64 ?hl]
  case hl =>
    rw [dropWhile_packBE8_small h]
    by_cases hw : w = 0 <;> simp [hw]
  by_cases hw : w = 0
  · simp [hw]
  · simp [hw, dropWhile_packBE8_small h]

theorem padLeft_one_digit {w : Nat} :
    padLeft 1 (if w = 0 then [] else [w]) = [w] := by
  by_cases hw : w = 0
  · simp [hw, padLeft]
  · simp [hw, padLeft]

theorem padLeft_two_digits {w : Nat} (h : w < 65536) :
    padLeft 2 (if w = 0 then [] else (packBE 8 w).dropWhile (· == 0)) =
      [w / 256, w % 256] := by
  by_cases hw : w = 0
  · simp [hw, padLeft, List.replicate]
  · rw [if_neg hw, dropWhile_packBE8_two h]
    by_cases hq : w / 256 = 0
    · have hr : w % 256 ≠ 0 := by omega
      simp [hq, hr, padLeft, List.replicate]
    · simp [hq, padLeft]

theorem option_encoding_small {v : Int} (h0 : 0 ≤ v) (h : v < 13) :
    option_encoding v = .ok (v.toNat, []) := by
  unfold option_encoding
  rw [if_neg (by omega), if_pos h]

theorem option_encoding_mid {v : Int} (h0 : 13 ≤ v) (h : v < 269) :
    option_encoding v = .ok (13, [v.toNat - 13]) := by
  have hw : v.toNat - 13 < 256 := by omega
  unfold option_encoding
  rw [if_neg (by omega), if_neg (by omega), if_pos h,
    optionint_to_packed_small hw]
  dsimp only
  rw [padLeft_one_digit]

theorem option_encoding_big {v : Int} (h0 : 269 ≤ v) (h : v < 65805) :
    option_encoding v = .ok (14, [(v.toNat - 269) / 256, (v.toNat - 269) % 256]) := by
  have hw : v.toNat - 269 < 65536 := by omega
  have h64 : v.toNat - 269 < 2 ^ 64 := by norm_num; omega
  have hpk : optionint_to_packed (v.toNat - 269) =
      .ok (if v.toNat - 269 = 0 then []
        else (packBE 8 (v.toNat - 269)).dropWhile (· == 0)) := by
    unfold optionint_to_packed
    rw [format_to_packed_uint_of_le 2 (v.toNat - 269) h64 ?hl]
    case hl =>
      by_cases hz : v.toNat - 269 = 0
      · simp [hz]
      · rw [if_neg hz, dropWhile_packBE8_two hw]
        by_cases hq : (v.toNat - 269) / 256 = 0 <;>
          by_cases hr : (v.toNat - 269) % 256 = 0 <;> simp [hq, hr]
  unfold option_encoding
  rw [if_neg (by omega), if_neg (by omega), if_neg (by omega), hpk]
  dsimp only
  rw [padLeft_two_digits hw]

theorem option_encoding_ok_nonneg {v : Int} {ov : Nat} {ovx : Bytes}
    (h : option_encoding v = .ok (ov, ovx)) : 0 ≤ v := by
  by_contra hneg
  unfold option_encoding at h
  rw [if_pos (by omega)] at h
  exact absurd h (by simp)

theorem option_encoding_nibble {v : Int} {ov : Nat} {ovx : Bytes}
    (h : option_encoding v = .ok (ov, ovx)) : ov ≤ 14 := by
  have h0 := option_encoding_ok_nonneg h
  by_cases h13 : v < 13
  · rw [option_encoding_small h0 h13] at h
    simp only [Except.ok.injEq, Prod.mk.injEq] at h
    omega
  · by_cases h269 : v < 269
    · rw [option_encoding_mid (by omega) h269] at h
      simp only [Except.ok.injEq, Prod.mk.injEq] at h
      omega
    · unfold option_encoding at h
      rw [if_neg (by omega), if_neg (by omega), if_neg (by omega)] at h
      cases hp : optionint_to_packed (v.toNat - 269) with
      | error e => rw [hp] at h; exact absurd h (by simp)
      | ok b =>
        rw [hp] at h
        simp only [Except.ok.injEq, Prod.mk.injEq] at h
        omega

theorem optionint_from_packed_one (x : Nat) :
    optionint_from_packed [x] = .ok x := by
  simp [optionint_from_packed, beVal]

theorem optionint_from_packed_two (x y : Nat) :
    optionint_from_packed [x, y] = .ok (x * 256 + y) := by
  simp [optionint_from_packed, beVal]

theorem option_decoding_small {ov : Nat} (h : ov < 13) (t : Bytes) :
    option_decoding ov t = .ok (ov, t) := by
  unfold option_decoding
  rw [if_neg (by omega), if_neg (by omega), if_neg (by omega)]

theorem option_decoding_13 (x : Nat) (t : Bytes) :
    option_decoding 13 (x :: t) = .ok (13 + x, t) := by
  unfold option_decoding
  rw [if_neg (by omega), if_neg (by omega), if_pos rfl]
  simp [List.take, List.drop, optionint_from_packed_one]

theorem option_decoding_14 (x y : Nat) (t : Bytes) :
    option_decoding 14 (x :: y :: t) = .ok (269 + (x * 256 + y), t) := by
  unfold option_decoding
  rw [if_neg (by omega), if_pos rfl]
  simp [List.take, List.drop, optionint_from_packed_two]

/-- The encoder/decoder inverse for a single nibble-plus-extension value:
if `option_encoding` produced `(ov, ovx)` then `option_decoding` consumes
exactly `ovx` from the front of the stream and returns the value. -/
theorem option_encoding_decoding {v : Int} {ov : Nat} {ovx : Bytes} (t : Bytes)
    (h : option_encoding v = .ok (ov, ovx)) :
    option_decoding ov (ovx ++ t) = .ok (v.toNat, t) := by
  have h0 := option_encoding_ok_nonneg h
  by_cases h13 : v < 13
  · rw [option_encoding_small h0 h13] at h
    simp only [Except.ok.injEq, Prod.mk.injEq] at h
    obtain ⟨h1, h2⟩ := h
    subst h1; subst h2
    simpa using option_decoding_small (by omega) t
  · by_cases h269 : v < 269
    · rw [option_encoding_mid (by omega) h269] at h
      simp only [Except.ok.injEq, Prod.mk.injEq] at h
      obtain ⟨h1, h2⟩ := h
      subst h1; subst h2
      rw [List.cons_append, List.nil_append, option_decoding_13]
      have : 13 + (v.toNat - 13) = v.toNat := by omega
      rw [this]
    · unfold option_encoding at h
      rw [if_neg (by omega), if_neg (by omega), if_neg (by omega)] at h
      cases hp : optionint_to_packed (v.toNat - 269) with
      | error e => rw [hp] at h; exact absurd h (by simp)
      | ok b =>
        rw [hp] at h
        simp only [Except.ok.injEq, Prod.mk.injEq] at h
        obtain ⟨h1, h2⟩ := h
        subst h1
        obtain ⟨hw, _, _, hb⟩ := optionint_to_packed_ok hp
        rw [hb] at h2
        rw [← h2, padLeft_two_digits hw]
        rw [List.cons_append, List.cons_append, List.nil_append, option_decoding_14]
        have : 269 + ((v.toNat - 269) / 256 * 256 + (v.toNat - 269) % 256) = v.toNat := by
          omega
        rw [this]

/-- C2 first part, stated over the six boundary values as a decidable
proposition. -/
theorem option_encoding_boundary_values :
    ∀ v ∈ ([0, 12, 13, 268, 269, 65536 + 268] : List Int),
      ∃ ov ovx, option_encoding v = .ok (ov, ovx) ∧
        option_decoding ov ovx = .ok (v.toNat, []) := by
  intro v hv
  fin_cases hv
  · exact ⟨0, [], by decide, by decide⟩
  · exact ⟨12, [], by decide, by decide⟩
  · exact ⟨13, [0], by decide, by decide⟩
  · exact ⟨13, [255], by decide, by decide⟩
  · exact ⟨14, [0, 0], by decide, by decide⟩
  · exact ⟨14, [255, 255], by decide, by decide⟩

/-- C2: the six boundary values round-trip through option_encoding and
option_decoding with no unconsumed extension bytes; option_encoding never
produces nibble 15; a nibble of 15 fed to option_decoding raises, and a
first byte other than the 0xFF payload marker carrying 15 in either
sub-field makes _decode_one_option raise OptionDecodeError, while the
0xFF payload marker terminates option parsing without being an option. -/
theorem optionNibbleBoundaries :
    (∀ v ∈ ([0, 12, 13, 268, 269, 65536 + 268] : List Int),
      ∃ ov ovx, option_encoding v = .ok (ov, ovx) ∧
        option_decoding ov ovx = .ok (v.toNat, [])) ∧
    (∀ (v : Int) (ov : Nat) (ovx : Bytes),
      option_encoding v = .ok (ov, ovx) → ov ≠ 15) ∧
    (∀ (ov : Nat) (data : Bytes), 15 ≤ ov →
      option_decoding ov data = .error .valueError) ∧
    (∀ (b : Nat) (data : Bytes), b ≠ 0xFF →
      (b >>> 4 = 15 ∨ b &&& 0x0F = 15) →
      _decode_one_option (b :: data) = .error .optionDecodeError) ∧
    (∀ data : Bytes, _decode_one_option (0xFF :: data) = .ok (none, 0xFF :: data)) := by
  refine ⟨option_encoding_boundary_values, ?_, ?_, ?_, ?_⟩
  · intro v ov ovx h
    have := option_encoding_nibble h
    omega
  · intro ov data h
    unfold option_decoding
    rw [if_pos h]
  · intro b data hb h15
    unfold _decode_one_option
    simp only
    rw [if_neg hb, if_pos h15]
  · intro data
    unfold _decode_one_option
    simp

theorem optionNibbleBoundaries_witness :
    (∃ ov ovx, option_encoding 268 = .ok (ov, ovx) ∧
      option_decoding ov ovx = .ok ((268 : Int).toNat, [])) ∧
    (13 : Nat) ≠ 15 ∧
    option_decoding 15 [1, 2] = .error .valueError ∧
    _decode_one_option (0xF0 :: [7]) = .error .optionDecodeError ∧
    _decode_one_option (0xFF :: [7]) = .ok (none, [0xFF, 7]) :=
  ⟨optionNibbleBoundaries.1 268 (by decide),
   optionNibbleBoundaries.2.1 268 13 [255] (by decide),
   optionNibbleBoundaries.2.2.1 15 [1, 2] (by decide),
   optionNibbleBoundaries.2.2.2.1 0xF0 [7] (by decide) (by decide),
   optionNibbleBoundaries.2.2.2.2 [7]⟩

/-- C3: packing 0 with the unsigned-integer format yields the empty byte
string for every bound, packing 256 yields exactly the two bytes 1, 0;
unpacking any byte string within the length bound sums the bytes
big-endian, so paddings by leading zero bytes decode to the same integer
as the packed (minimal) encoding. -/
theorem uintCanonicalization :
    (∀ mx : Nat, format_to_packed (.uint mx) (.uint 0) = .ok []) ∧
    (∀ mx : Nat, 2 ≤ mx → format_to_packed (.uint mx) (.uint 256) = .ok [1, 0]) ∧
    (∀ (mx : Nat) (data : Bytes), data.length ≤ mx →
      format_from_packed (.uint mx) data = .ok (.uint (beVal data))) ∧
    (∀ (mx v : Nat) (b : Bytes), format_to_packed (.uint mx) (.uint v) = .ok b →
      ∀ (k mx2 : Nat), k + b.length ≤ mx2 →
        format_from_packed (.uint mx2) (List.replicate k 0 ++ b) = .ok (.uint v)) := by
  refine ⟨?_, ?_, ?_, ?_⟩
  · intro mx
    have h := format_to_packed_uint_of_le mx 0 (by norm_num) (by simp)
    simpa using h
  · intro mx h2
    have h256 : (256 : Nat) < 2 ^ 64 := by norm_num
    have hdrop : (packBE 8 256).dropWhile (· == 0) = [1, 0] := by decide
    have h := format_to_packed_uint_of_le mx 256 h256 ?hl
    case hl => rw [if_neg (by omega), hdrop]; simpa using h2
    rw [h, if_neg (by omega), hdrop]
  · intro mx data hlen
    unfold format_from_packed
    rw [if_neg ?hc]
    case hc =>
      simp only [format_min_length, format_max_length]
      omega
  · intro mx v b hb k mx2 hlen
    obtain ⟨hval, _, _, _⟩ := format_to_packed_uint_ok hb
    unfold format_from_packed
    rw [if_neg ?hc]
    case hc =>
      simp only [format_min_length, format_max_length, List.length_append,
        List.length_replicate]
      omega
    rw [beVal_replicate_zero, hval]

theorem uintCanonicalization_witness :
    (2 : Nat) ≤ 2 ∧
    format_to_packed (.uint 2) (.uint 256) = .ok [1, 0] ∧
    format_from_packed (.uint 4) [0, 1] = .ok (.uint (beVal [0, 1])) ∧
    format_from_packed (.uint 4) (List.replicate 2 0 ++ [1, 0]) = .ok (.uint 256) :=
  ⟨le_refl 2,
   uintCanonicalization.2.1 2 (le_refl 2),
   uintCanonicalization.2.2.1 4 [0, 1] (by decide),
   uintCanonicalization.2.2.2 2 256 [1, 0]
     (uintCanonicalization.2.1 2 (le_refl 2)) 2 4 (by decide)⟩

/-! Claims C10 (code conversion), C9 (write-once endpoints) and C7
(retransmission schedule). -/

/-- C10 counterexample: a tuple of length 3 is neither an int nor a pair,
yet code_as_tuple raises ValueError for it, not the TypeError the claim
asserts for such arguments. -/
theorem codeAsTuple_triple_counterexample :
    code_as_tuple (.tup [0, 0, 0]) = .error .valueError ∧
    code_as_tuple (.tup [0, 0, 0]) ≠ .error .typeError := by
  decide

set_option maxRecDepth 8192 in
/-- C10 (amended): on integers 0-255 code_as_tuple splits the code into
(n >>> 5, n &&& 0x1F) and code_as_integer inverts it; ints outside 0-255
and pairs with a component out of range raise ValueError; a tuple whose
length is not 2 raises ValueError; a non-int non-tuple argument raises
TypeError. -/
theorem codeAsTupleAsInteger :
    (∀ n : Nat, n < 256 →
      code_as_tuple (.int (n : Int)) = .ok (n >>> 5, n &&& 0x1F) ∧
      code_as_integer (.tup [((n >>> 5 : Nat) : Int), ((n &&& 0x1F : Nat) : Int)]) =
        .ok n) ∧
    (∀ n : Int, n < 0 ∨ 255 < n → code_as_tuple (.int n) = .error .valueError) ∧
    (∀ c d : Int, c < 0 ∨ 7 < c ∨ d < 0 ∨ 31 < d →
      code_as_tuple (.tup [c, d]) = .error .valueError) ∧
    (∀ xs : List Int, xs.length ≠ 2 → code_as_tuple (.tup xs) = .error .valueError) ∧
    code_as_tuple .other = .error .typeError := by
  refine ⟨by decide, ?_, ?_, ?_, rfl⟩
  · intro n h
    simp only [code_as_tuple]
    rw [if_pos h]
  · intro c d h
    simp only [code_as_tuple]
    by_cases h1 : 0 ≤ c ∧ c ≤ 7
    · rw [if_neg (by omega), if_pos (by omega)]
    · rw [if_pos (by omega)]
  · intro xs hlen
    rcases xs with _ | ⟨a, _ | ⟨b, _ | ⟨c, t⟩⟩⟩
    · rfl
    · rfl
    · simp at hlen
    · rfl

theorem codeAsTupleAsInteger_witness :
    ((69 : Nat) < 256 ∧
      code_as_tuple (.int ((69 : Nat) : Int)) = .ok (69 >>> 5, 69 &&& 0x1F)) ∧
    code_as_tuple (.int 300) = .error .valueError ∧
    code_as_tuple (.tup [9, 0]) = .error .valueError ∧
    code_as_tuple (.tup [1, 2, 3]) = .error .valueError :=
  ⟨⟨by decide, (codeAsTupleAsInteger.1 69 (by decide)).1⟩,
   codeAsTupleAsInteger.2.1 300 (by decide),
   codeAsTupleAsInteger.2.2.1 9 0 (by decide),
   codeAsTupleAsInteger.2.2.2.1 [1, 2, 3] (by decide)⟩

/-- C9 counterexample: with the source endpoint already set, assigning
None raises TypeError instead of being the no-op the claim asserts; the
destination setter behaves identically. -/
theorem endpoint_none_assign_counterexample :
    set_source_endpoint (some 0) none = .error .typeError ∧
    set_source_endpoint (some 0) none ≠ .ok (some 0) ∧
    set_destination_endpoint (some 0) none = .error .typeError := by
  decide

/-- C9 (amended): both endpoint fields start as None; assigning a
different endpoint than the current one raises ValueError (so the field
is not overwritten); re-assigning the same endpoint succeeds and keeps
the value; assigning None while unset is a no-op; assigning None once the
field is set raises TypeError. -/
theorem endpointWriteOnce :
    (∀ e e2 : Endpoint, e ≠ e2 →
      set_source_endpoint (some e) (some e2) = .error .valueError ∧
      set_destination_endpoint (some e) (some e2) = .error .valueError) ∧
    (∀ e : Endpoint,
      set_source_endpoint (some e) (some e) = .ok (some e) ∧
      set_destination_endpoint (some e) (some e) = .ok (some e)) ∧
    (∀ e : Endpoint,
      set_source_endpoint none (some e) = .ok (some e) ∧
      set_destination_endpoint none (some e) = .ok (some e)) ∧
    (set_source_endpoint none none = .ok none ∧
      set_destination_endpoint none none = .ok none) ∧
    (∀ e : Endpoint,
      set_source_endpoint (some e) none = .error .typeError ∧
      set_destination_endpoint (some e) none = .error .typeError) := by
  refine ⟨?_, ?_, ?_, by decide, ?_⟩
  · intro e e2 h
    constructor
    · simp only [set_source_endpoint]
      rw [if_neg (by simp)]
      rw [if_pos ⟨by simp, by simp [h]⟩]
    · simp only [set_destination_endpoint]
      rw [if_neg (by simp)]
      rw [if_pos ⟨by simp, by simp [h]⟩]
  · intro e
    constructor
    · simp only [set_source_endpoint]
      rw [if_neg (by simp)]
      rw [if_neg (by simp)]
    · simp only [set_destination_endpoint]
      rw [if_neg (by simp)]
      rw [if_neg (by simp)]
  · intro e
    constructor
    · simp only [set_source_endpoint]
      rw [if_neg (by simp)]
      rw [if_neg (by simp)]
    · simp only [set_destination_endpoint]
      rw [if_neg (by simp)]
      rw [if_neg (by simp)]
  · intro e
    constructor
    · simp only [set_source_endpoint]
      rw [if_neg (by simp)]
    · simp only [set_destination_endpoint]
      rw [if_neg (by simp)]

theorem endpointWriteOnce_witness :
    (0 : Endpoint) ≠ 1 ∧
    set_source_endpoint (some 0) (some 1) = .error .valueError ∧
    set_source_endpoint (some 0) (some 0) = .ok (some 0) ∧
    set_source_endpoint none (some 0) = .ok (some 0) ∧
    set_destination_endpoint (some 0) none = .error .typeError :=
  ⟨by decide,
   (endpointWriteOnce.1 0 1 (by decide)).1,
   (endpointWriteOnce.2.1 0).1,
   (endpointWriteOnce.2.2.1 0).1,
   (endpointWriteOnce.2.2.2.2 0).2⟩

theorem rs_run_overrun : ∀ (j : Nat) (t : ℚ) (n k : Nat), n ≤ k + j → k ≤ n →
    rs_run ⟨t, n, k⟩ j =
      (((List.range (n - k)).map fun i => 2 ^ i * t), ⟨2 ^ (n - k) * t, n, n⟩) := by
  intro j
  induction j with
  | zero =>
    intro t n k h1 h2
    have hk : k = n := by omega
    subst hk
    simp [rs_run]
  | succ j ih =>
    intro t n k h1 h2
    by_cases hk : k = n
    · subst hk
      rw [rs_run, rs_next, if_pos (by dsimp only; omega)]
      simp
    · have hlt : k < n := by omega
      rw [rs_run, rs_next, if_neg (by dsimp only; omega)]
      dsimp only
      rw [ih (t + t) n (k + 1) (by omega) (by omega)]
      have hsub : n - k = (n - (k + 1)) + 1 := by omega
      rw [hsub, List.range_succ_eq_map, List.map_cons, List.map_map]
      simp only [Prod.mk.injEq, pow_zero, one_mul, List.cons.injEq, true_and,
        RetransmissionState.mk.injEq, and_true]
      refine ⟨?_, ?_⟩
      · apply List.map_congr_left
        intro i hi
        simp only [Function.comp_apply, pow_succ]
        ring
      · rw [pow_succ]
        ring

/-- C7: a RetransmissionState built with explicit (initial_timeout,
max_retransmissions) = (t, n) yields exactly t, 2t, ..., 2^(n-1)t over
the first n pulls and nothing more however often it is pulled (the
sequence does not restart), and next() on any state whose counter has
reached the budget raises StopIteration. -/
theorem retransmissionSchedule (t : ℚ) (n : Nat) :
    (∀ j : Nat, rs_run (retransmission_init t n) (n + j) =
      (((List.range n).map fun i => 2 ^ i * t), ⟨2 ^ n * t, n, n⟩)) ∧
    (∀ (q : ℚ) (k : Nat), n ≤ k → rs_next ⟨q, n, k⟩ = .error .stopIteration) := by
  constructor
  · intro j
    have h := rs_run_overrun (n + j) t n 0 (by omega) (by omega)
    simpa [retransmission_init] using h
  · intro q k h
    rw [rs_next, if_pos h]

theorem retransmissionSchedule_witness :
    rs_run (retransmission_init 3 4) (4 + 1) = ([3, 6, 12, 24], ⟨48, 4, 4⟩) ∧
    (4 : Nat) ≤ 4 ∧ rs_next ⟨48, 4, 4⟩ = .error .stopIteration := by
  refine ⟨?_, le_refl 4, (retransmissionSchedule 3 4).2 48 4 (le_refl 4)⟩
  rw [(retransmissionSchedule 3 4).1 1]
  norm_num [List.range_succ]

/-! Claims C4 (token boundary), C5 (empty-message invariant) and C6
(version mismatch). -/

theorem code_as_tuple_byte {b : Nat} (h : b < 256) :
    code_as_tuple (.int (b : Int)) = .ok (b >>> 5, b &&& 0x1F) := by
  simp only [code_as_tuple]
  rw [if_neg (by omega)]
  simp

theorem tokenTooLong_decode {b0 b1 : Nat} (b2 b3 : Nat) (rest : Bytes)
    (hver : b0 >>> 6 = 1) (hb1 : b1 < 256) (htkl : 9 ≤ 0x0F &&& b0) :
    from_packed (b0 :: b1 :: b2 :: b3 :: rest) =
      .error (.messageFormatError .tokenTooLong) := by
  simp only [from_packed]
  rw [if_neg (by simp [hver])]
  simp only [from_packed_tail]
  rw [code_as_tuple_byte hb1]
  dsimp only
  rw [if_pos htkl]

/-- C4: tokens of length 0 through 8 are accepted by the token setter and
by decode (two concrete decodes below exercise lengths 0 and 8); any
packed version-1 message whose TKL field is 9 or more fails decode with
TOKEN_TOO_LONG; assigning a token longer than 8 raises ValueError and a
non-bytes token raises TypeError. -/
theorem tokenLengthBoundary :
    (∀ t : Bytes, t.length ≤ 8 → set_token (.bytes t) = .ok t) ∧
    (∀ t : Bytes, 8 < t.length → set_token (.bytes t) = .error .valueError) ∧
    set_token .other = .error .typeError ∧
    (∀ (b0 b1 b2 b3 : Nat) (rest : Bytes), b0 >>> 6 = 1 → b1 < 256 →
      9 ≤ 0x0F &&& b0 →
      from_packed (b0 :: b1 :: b2 :: b3 :: rest) =
        .error (.messageFormatError .tokenTooLong)) ∧
    from_packed [0x40, 0, 0, 0] =
      .ok (some ⟨.plain, 0, some (0, 0), some 0, [], [], none⟩) ∧
    (∃ m : Message,
      from_packed [0x48, 0x01, 0, 0, 1, 2, 3, 4, 5, 6, 7, 8] = .ok (some m) ∧
      m.token = [1, 2, 3, 4, 5, 6, 7, 8]) := by
  refine ⟨?_, ?_, rfl,
    fun b0 b1 b2 b3 rest hv hb ht => tokenTooLong_decode b2 b3 rest hv hb ht,
    by decide, ?_⟩
  · intro t h
    simp only [set_token]
    rw [if_neg (by omega)]
  · intro t h
    simp only [set_token]
    rw [if_pos h]
  · exact ⟨⟨.request, 0, some (0, 1), some 0, [1, 2, 3, 4, 5, 6, 7, 8], [], none⟩,
      by decide, rfl⟩

theorem tokenLengthBoundary_witness :
    ([1, 2, 3, 4, 5, 6, 7, 8] : Bytes).length ≤ 8 ∧
    set_token (.bytes [1, 2, 3, 4, 5, 6, 7, 8]) = .ok [1, 2, 3, 4, 5, 6, 7, 8] ∧
    set_token (.bytes [1, 2, 3, 4, 5, 6, 7, 8, 9]) = .error .valueError ∧
    from_packed [0x49, 0, 0, 0] = .error (.messageFormatError .tokenTooLong) :=
  ⟨by decide,
   tokenLengthBoundary.1 [1, 2, 3, 4, 5, 6, 7, 8] (by decide),
   tokenLengthBoundary.2.1 [1, 2, 3, 4, 5, 6, 7, 8, 9] (by decide),
   tokenLengthBoundary.2.2.2.1 0x49 0 0 0 [] (by decide) (by decide) (by decide)⟩

/-- C5 counterexample: for the packed message 0x49 00 00 00 the decoded
code is Empty and TKL = 9 is nonzero, but from_packed raises
TOKEN_TOO_LONG, not the EMPTY_MESSAGE_NOT_EMPTY the claim asserts for
every Empty-coded message with nonzero TKL. -/
theorem emptyMessage_tklPrecedence_counterexample :
    (0x49 : Nat) >>> 6 = 1 ∧ 0x0F &&& (0x49 : Nat) = 9 ∧
    from_packed [0x49, 0, 0, 0] = .error (.messageFormatError .tokenTooLong) ∧
    from_packed [0x49, 0, 0, 0] ≠
      .error (.messageFormatError .emptyMessageNotEmpty) := by
  decide

/-- C5 (amended): for every message type, decoding a version-1 packed
message with the Empty code, TKL at most 8, and either a nonzero TKL or
bytes left after the 4-byte header raises EMPTY_MESSAGE_NOT_EMPTY (with
TKL 9 or more the TOKEN_TOO_LONG check takes precedence); and validate
raises EMPTY_MESSAGE_NOT_EMPTY for every message whose code is Empty and
whose token, options, or payload is non-empty. -/
theorem emptyMessageInvariant :
    (∀ (b0 b2 b3 : Nat) (rest : Bytes), b0 >>> 6 = 1 → 0x0F &&& b0 ≤ 8 →
      (0x0F &&& b0 ≠ 0 ∨ rest ≠ []) →
      from_packed (b0 :: 0 :: b2 :: b3 :: rest) =
        .error (.messageFormatError .emptyMessageNotEmpty)) ∧
    (∀ m : Message, m.code = some (0, 0) →
      (m.token ≠ [] ∨ m.options ≠ [] ∨ payloadTruthy m = true) →
      validate m = .error (.messageValidationError .emptyMessageNotEmpty)) := by
  constructor
  · intro b0 b2 b3 rest hver htkl hne
    simp only [from_packed]
    rw [if_neg (by simp [hver])]
    simp only [from_packed_tail]
    rw [code_as_tuple_byte (by norm_num)]
    dsimp only
    rw [if_neg (by omega)]
    have hc : ((0 : Nat) >>> 5, (0 : Nat) &&& 0x1F) = ((0 : Nat), (0 : Nat)) ∧
        (0x0F &&& b0 ≠ 0 ∨ 0 < rest.length) := by
      refine ⟨by decide, ?_⟩
      rcases hne with h | h
      · exact Or.inl h
      · exact Or.inr (by simpa using List.length_pos.mpr h)
    rw [if_pos hc]
  · intro m hcode hne
    simp only [validate, hcode]
    rw [if_pos trivial, if_pos hne]

theorem emptyMessageInvariant_witness :
    ((0x41 : Nat) >>> 6 = 1 ∧ 0x0F &&& (0x41 : Nat) ≤ 8 ∧
      from_packed [0x41, 0, 0, 0, 0xAA] =
        .error (.messageFormatError .emptyMessageNotEmpty)) ∧
    validate ⟨.plain, 1, some (0, 0), some 1, [7], [], none⟩ =
      .error (.messageValidationError .emptyMessageNotEmpty) :=
  ⟨⟨by decide, by decide,
    emptyMessageInvariant.1 0x41 0 0 [0xAA] (by decide) (by decide)
      (Or.inl (by decide))⟩,
   emptyMessageInvariant.2 ⟨.plain, 1, some (0, 0), some 1, [7], [], none⟩ rfl
     (Or.inl (by decide))⟩

/-- C6: for every packed input whose version field differs from 1,
from_packed returns None without raising; and whenever the version field
equals 1 it never returns None — every other exit is a Message or a
raised error (the empty input, which has no version field, raises
IndexError). -/
theorem versionMismatchOnlyNone :
    (∀ (b0 : Nat) (rest : Bytes), b0 >>> 6 ≠ 1 →
      from_packed (b0 :: rest) = .ok none) ∧
    (∀ (b0 : Nat) (rest : Bytes), b0 >>> 6 = 1 →
      from_packed (b0 :: rest) ≠ .ok none) ∧
    from_packed [] = .error .indexError := by
  refine ⟨?_, ?_, rfl⟩
  · intro b0 rest h
    simp only [from_packed]
    rw [if_pos h]
  · intro b0 rest h
    simp only [from_packed]
    rw [if_neg (by simp [h])]
    cases from_packed_tail b0 rest <;> simp

theorem versionMismatchOnlyNone_witness :
    ((0x09 : Nat) >>> 6 ≠ 1 ∧ from_packed [0x09, 0, 0, 0] = .ok none) ∧
    ((0x40 : Nat) >>> 6 = 1 ∧ from_packed [0x40, 0, 0, 0] ≠ .ok none) :=
  ⟨⟨by decide, versionMismatchOnlyNone.1 0x09 [0, 0, 0] (by decide)⟩,
   ⟨by decide, versionMismatchOnlyNone.2.1 0x40 [0, 0, 0] (by decide)⟩⟩

/-! Claim C8: Proxy-Uri conflict in validate. -/

theorem type_for_code_request {d : Nat} (hd : d ≠ 0) :
    _type_for_code (0, d) = some .request := by
  unfold _type_for_code code_registry code_class_registry
  rcases d with _ | _ | _ | _ | _ | d5
  · exact absurd rfl hd
  · rfl
  · rfl
  · rfl
  · rfl
  · rfl

theorem mem_sorted_options {o : OptInstance} {l : List OptInstance} (h : o ∈ l) :
    o ∈ sorted_options l :=
  ((List.perm_insertionSort option_key_le l).mem_iff).mpr h

theorem replace_keeps_valid_request {o : OptInstance} {l : List OptInstance}
    (hmem : o ∈ l) (hvalid : valid_in_request o = true) :
    o ∈ replace_unacceptable_options l true := by
  unfold replace_unacceptable_options
  refine List.mem_map.mpr ⟨o, hmem, ?_⟩
  rw [if_pos (by simpa using hvalid)]

/-- C8: validating a Request (request class, a nonzero class-0 code, CON
or NON type) whose options contain a Proxy-Uri together with at least one
Uri-Host, Uri-Port, Uri-Path or Uri-Query fails with PROXY_URI_CONFLICT. -/
theorem proxyUriConflictValidate (m : Message) (d : Nat)
    (hcls : m.cls = .request)
    (hcode : m.code = some (0, d)) (hd : d ≠ 0)
    (htype : m.messageType = 0 ∨ m.messageType = 1)
    (hproxy : ∃ o ∈ m.options, o.known = true ∧ o.number = 35)
    (huri : ∃ o ∈ m.options, isUriStarOption o = true) :
    validate m = .error (.messageValidationError .proxyUriConflict) := by
  have h2 : m.messageType ≠ 2 := by rcases htype with h | h <;> simp [h]
  have h3 : m.messageType ≠ 3 := by rcases htype with h | h <;> simp [h]
  obtain ⟨op, hpmem, hpk, hpn⟩ := hproxy
  obtain ⟨ou, humem, hup⟩ := huri
  have hpvalid : valid_in_request op = true := by
    simp [valid_in_request, repeatableOf, hpk, hpn, find_option]
  have huvalid : valid_in_request ou = true := by
    simp only [isUriStarOption, Bool.and_eq_true, Bool.or_eq_true, beq_iff_eq] at hup
    obtain ⟨huk, hun⟩ := hup
    rcases hun with ((h | h) | h) | h <;>
      simp [valid_in_request, repeatableOf, huk, h, find_option]
  have hpR : op ∈ replace_unacceptable_options m.options true :=
    replace_keeps_valid_request hpmem hpvalid
  have huR : ou ∈ replace_unacceptable_options m.options true :=
    replace_keeps_valid_request humem huvalid
  have hpS : op ∈ sorted_options (replace_unacceptable_options m.options true) :=
    mem_sorted_options hpR
  have huS : ou ∈ sorted_options (replace_unacceptable_options m.options true) :=
    mem_sorted_options huR
  simp only [validate, hcode]
  rw [if_neg (by simp [hd])]
  rw [if_neg h3, if_neg (by simp [h2]), if_neg (by simp [hcls, isRequestClass])]
  rw [type_for_code_request hd]
  dsimp only
  rw [if_neg (by simp [hcls, isInstanceOf])]
  simp only [validate_tail, hcls]
  rw [show isResponseClass MClass.request = false from rfl,
    show isRequestClass MClass.request = true from rfl]
  simp only [Bool.false_or, if_true]
  cases hfm : first_match_number
      (sorted_options (replace_unacceptable_options m.options true)) 35 with
  | none =>
    exfalso
    have hs : (first_match_number
        (sorted_options (replace_unacceptable_options m.options true)) 35).isSome :=
      List.find?_isSome.mpr ⟨op, hpS, by simp [hpk, hpn]⟩
    rw [hfm] at hs
    simp at hs
  | some o2 =>
    dsimp only
    have hfilter : ((sorted_options
        (replace_unacceptable_options m.options true)).filter
          isUriStarOption).length ≠ 0 := by
      have hmemf : ou ∈ (sorted_options
          (replace_unacceptable_options m.options true)).filter isUriStarOption :=
        List.mem_filter.mpr ⟨huS, hup⟩
      have := List.length_pos.mpr (List.ne_nil_of_mem hmemf)
      omega
    rw [if_pos hfilter]

theorem proxyUriConflictValidate_witness :
    validate ⟨.request, 0, some (0, 1), some 1, [],
        [⟨35, true, .text [97]⟩, ⟨11, true, .text [98]⟩], none⟩ =
      .error (.messageValidationError .proxyUriConflict) :=
  proxyUriConflictValidate
    ⟨.request, 0, some (0, 1), some 1, [],
      [⟨35, true, .text [97]⟩, ⟨11, true, .text [98]⟩], none⟩ 1
    rfl rfl (by decide) (Or.inl rfl)
    ⟨⟨35, true, .text [97]⟩, by decide, by decide, by decide⟩
    ⟨⟨11, true, .text [98]⟩, by decide, by decide⟩

/-! Claim C1: the message codec round-trip. -/

theorem canonical_option_known {o : OptInstance}
    (h : canonical_option o = true) : o.known = true := by
  simp only [canonical_option, Bool.and_eq_true] at h
  exact h.1

theorem canonical_option_from_packed {o : OptInstance} {pv : Bytes}
    (h : canonical_option o = true) (hpv : packed_value o = .ok pv) :
    option_from_packed o.number pv = .ok o := by
  simp only [canonical_option, Bool.and_eq_true] at h
  obtain ⟨hk, h2⟩ := h
  cases hfind : find_option o.number with
  | none => rw [hfind] at h2; exact absurd h2 (by simp)
  | some ty =>
    rw [hfind] at h2
    dsimp only at h2
    have hfmt : formatOf o = ty.format := by
      unfold formatOf
      rw [if_pos hk, hfind]
    unfold packed_value at hpv
    rw [hfmt] at hpv
    rw [hpv] at h2
    dsimp only at h2
    have h3 : format_from_packed ty.format pv = .ok o.value := of_decide_eq_true h2
    unfold option_from_packed
    rw [hfind]
    dsimp only
    rw [h3]
    dsimp only
    cases o with
    | mk number known value =>
      simp only at hk ⊢
      rw [hk]

theorem encode_options_loop_cons_inv {r : Bool} {opt : OptInstance}
    {rest : List OptInstance} {last : Nat} {bs : Bytes}
    (h : encode_options_loop r (opt :: rest) last = .ok bs) :
    ∃ pv od odx ol olx tailbs,
      packed_value opt = .ok pv ∧
      option_encoding ((opt.number : Int) - (last : Int)) = .ok (od, odx) ∧
      option_encoding ((pv.length : Int)) = .ok (ol, olx) ∧
      encode_options_loop r rest opt.number = .ok tailbs ∧
      bs = (((od <<< 4) ||| ol) :: (odx ++ olx ++ pv)) ++ tailbs := by
  unfold encode_options_loop at h
  dsimp only at h
  split at h
  · exact absurd h (by simp)
  split at h
  · exact absurd h (by simp)
  split at h
  · exact absurd h (by simp)
  rename_i pv hpv
  split at h
  · exact absurd h (by simp)
  rename_i od odx hod
  split at h
  · exact absurd h (by simp)
  rename_i ol olx hol
  split at h
  · exact absurd h (by simp)
  rename_i tailbs htl
  simp only [Except.ok.injEq] at h
  exact ⟨pv, od, odx, ol, olx, tailbs, hpv, hod, hol, htl, h.symm⟩

theorem nibble_ne_255 : ∀ od ≤ 14, ∀ ol ≤ 14, ((od <<< 4) ||| ol) ≠ 255 := by
  decide

theorem nibble_hi : ∀ od ≤ 14, ∀ ol ≤ 14, ((od <<< 4) ||| ol) >>> 4 = od := by
  decide

theorem nibble_lo : ∀ od ≤ 14, ∀ ol ≤ 14, ((od <<< 4) ||| ol) &&& 0x0F = ol := by
  decide

theorem decode_one_on_chunk {od ol dn ln : Nat} {odx olx suffix : Bytes}
    (hod14 : od ≤ 14) (hol14 : ol ≤ 14)
    (hdec1 : option_decoding od (odx ++ (olx ++ suffix)) = .ok (dn, olx ++ suffix))
    (hdec2 : option_decoding ol (olx ++ suffix) = .ok (ln, suffix)) :
    _decode_one_option (((od <<< 4) ||| ol) :: (odx ++ (olx ++ suffix))) =
      .ok (some (dn, ln), suffix) := by
  unfold _decode_one_option
  dsimp only
  rw [if_neg (nibble_ne_255 od hod14 ol hol14)]
  rw [nibble_hi od hod14 ol hol14, nibble_lo od hod14 ol hol14]
  rw [if_neg (by omega)]
  rw [hdec1]
  dsimp only
  rw [hdec2]

/-- The option-block round-trip: decoding the bytes produced by the
encoder loop, followed by either nothing or a payload-marker-led
remainder, recovers exactly the encoded option instances and leaves the
remainder unconsumed. -/
theorem decode_encode_loop (r : Bool) (opts : List OptInstance) :
    ∀ (last : Nat) (bs rest : Bytes) (fuel : Nat),
      encode_options_loop r opts last = .ok bs →
      (∀ o ∈ opts, canonical_option o = true) →
      (rest = [] ∨ ∃ p, rest = 0xFF :: p) →
      (bs ++ rest).length ≤ fuel →
      decode_options_loop fuel (bs ++ rest) last = .ok (opts, rest) := by
  induction opts with
  | nil =>
    intro last bs rest fuel henc hcan hrest hfuel
    have hbs : bs = [] := by
      unfold encode_options_loop at henc
      simpa using henc.symm
    subst hbs
    rcases hrest with h | ⟨p, h⟩
    · subst h
      cases fuel <;> rfl
    · subst h
      cases fuel with
      | zero => rfl
      | succ f =>
        show decode_options_loop (f + 1) (255 :: p) last = .ok ([], 255 :: p)
        unfold decode_options_loop _decode_one_option
        simp
  | cons opt rest_opts ih =>
    intro last bs rest fuel henc hcan hrest hfuel
    obtain ⟨pv, od, odx, ol, olx, tailbs, hpv, hod, hol, htl, hbs⟩ :=
      encode_options_loop_cons_inv henc
    subst hbs
    have hcano := hcan opt (by simp)
    have hnn := option_encoding_ok_nonneg hod
    have hlast : last ≤ opt.number := by omega
    have hod14 := option_encoding_nibble hod
    have hol14 := option_encoding_nibble hol
    have htb : ((((od <<< 4) ||| ol) :: (odx ++ olx ++ pv)) ++ tailbs) ++ rest =
        ((od <<< 4) ||| ol) :: (odx ++ (olx ++ (pv ++ (tailbs ++ rest)))) := by
      simp [List.append_assoc]
    rw [htb] at hfuel ⊢
    cases fuel with
    | zero => simp at hfuel
    | succ f =>
      have hdec1 := option_encoding_decoding (olx ++ (pv ++ (tailbs ++ rest))) hod
      have hdec2 := option_encoding_decoding (pv ++ (tailbs ++ rest)) hol
      have htonat : ((opt.number : Int) - (last : Int)).toNat = opt.number - last := by
        omega
      rw [htonat] at hdec1
      have hlnat : ((pv.length : Int)).toNat = pv.length := by omega
      rw [hlnat] at hdec2
      have hone := decode_one_on_chunk hod14 hol14 hdec1 hdec2
      show decode_options_loop (f + 1) _ last = _
      unfold decode_options_loop
      rw [hone]
      dsimp only
      rw [List.take_left, List.drop_left]
      have hnum : last + (opt.number - last) = opt.number := by omega
      rw [hnum]
      rw [canonical_option_from_packed hcano hpv]
      have hih : decode_options_loop f (tailbs ++ rest) opt.number =
          .ok (rest_opts, rest) := by
        apply ih opt.number tailbs rest f htl
          (fun o ho => hcan o (by simp [ho])) hrest
        have := hfuel
        simp only [List.length_cons, List.length_append] at this ⊢
        omega
      rw [hih]

theorem header_byte_le : ∀ t < 4, ∀ k ≤ 8,
    ((1 <<< 6) ||| (t <<< 4) ||| (0x0F &&& k)) ≤ 255 := by
  decide

theorem header_byte_ver : ∀ t < 4, ∀ k ≤ 8,
    ((1 <<< 6) ||| (t <<< 4) ||| (0x0F &&& k)) >>> 6 = 1 := by
  decide

theorem header_byte_type : ∀ t < 4, ∀ k ≤ 8,
    0x03 &&& (((1 <<< 6) ||| (t <<< 4) ||| (0x0F &&& k)) >>> 4) = t := by
  decide

theorem header_byte_tkl : ∀ t < 4, ∀ k ≤ 8,
    0x0F &&& ((1 <<< 6) ||| (t <<< 4) ||| (0x0F &&& k)) = k := by
  decide

theorem code_byte_le : ∀ a ≤ 7, ∀ b ≤ 31, ((a <<< 5) ||| b) ≤ 255 := by
  decide

theorem code_byte_split : ∀ a ≤ 7, ∀ b ≤ 31,
    ((((a <<< 5) ||| b) >>> 5, ((a <<< 5) ||| b) &&& 0x1F) : Nat × Nat) = (a, b) := by
  decide

theorem code_as_tuple_pair {a b : Nat} (ha : a ≤ 7) (hb : b ≤ 31) :
    code_as_tuple (.tup [(a : Int), (b : Int)]) = .ok (a, b) := by
  simp only [code_as_tuple]
  rw [if_neg (by omega), if_neg (by omega)]
  simp

theorem packed_code_eval {m : Message} {a b : Nat} (hcode : m.code = some (a, b))
    (ha : a ≤ 7) (hb : b ≤ 31) :
    packed_code m = .ok ((a <<< 5) ||| b) := by
  unfold packed_code
  rw [hcode]
  dsimp only
  unfold code_as_integer
  rw [code_as_tuple_pair ha hb]

theorem mid_split {i : Nat} (h : i ≤ 65535) :
    ((i >>> 8) <<< 8) ||| (i &&& 0xFF) = i := by
  have h1 : i >>> 8 = i / 256 := by
    rw [Nat.shiftRight_eq_div_pow]
  have h2 : i &&& 0xFF = i % 256 := by
    have h3 := Nat.and_pow_two_sub_one_eq_mod i 8
    norm_num at h3
    exact h3
  have h4 : i % 256 < 2 ^ 8 := by
    show i % 256 < 256
    exact Nat.mod_lt i (by norm_num)
  rw [h1, h2, lor_shiftLeft_eq_add (i / 256) (i % 256) 8 h4]
  norm_num
  omega

theorem sorted_options_idem (l : List OptInstance) :
    sorted_options (sorted_options l) = sorted_options l :=
  List.Sorted.insertionSort_eq (List.sorted_insertionSort option_key_le l)

theorem mem_of_mem_sorted_options {o : OptInstance} {l : List OptInstance}
    (h : o ∈ sorted_options l) : o ∈ l :=
  ((List.perm_insertionSort option_key_le l).mem_iff).mp h

theorem message_init_flags (ctor : MClass) {t : Nat} (ht : t < 4) {a b i : Nat}
    (ha : a ≤ 7) (hb : b ≤ 31) (hi : i ≤ 65535) {token : Bytes}
    (htok : token.length ≤ 8) (options : List OptInstance) (payload : Option Bytes)
    (hpay : payload = none ∨ ∃ p, payload = some p ∧ p ≠ []) :
    message_init ctor (t = 0) (t = 2) (t = 3) (some (a, b)) (some i) (some token)
        (some options) payload =
      .ok ⟨ctor, t, some (a, b), some i, token, sorted_options options, payload⟩ := by
  unfold message_init
  dsimp only
  rw [code_as_tuple_pair ha hb]
  dsimp only
  rw [if_neg (by omega)]
  dsimp only
  simp only [set_token]
  rw [if_neg (by omega)]
  dsimp only
  have hsp : set_payload payload = payload := by
    rcases hpay with h | ⟨p, hp, hne⟩
    · subst h; rfl
    · subst hp
      simp only [set_payload]
      rw [if_neg (by simpa using hne)]
  rw [hsp]
  interval_cases t <;> rfl

/-- C1: the message codec round-trip.  For every valid message m (any of
the four types, a code whose class has a registered constructor, a
16-bit message id, a token of at most 8 bytes, canonical instances of
registered option types, an optional non-empty payload, and the
Empty-code emptiness invariant), a successful encoding decodes back to a
message with the same messageType, code, messageID, token and payload,
and with the options equal to the original multiset ordered (stably) by
option number. -/
theorem messageRoundTrip (m : Message) (a b i : Nat) (bs : Bytes)
    (htype : m.messageType < 4)
    (hcode : m.code = some (a, b)) (ha : a ≤ 7) (hb : b ≤ 31)
    (hctor : (_type_for_code (a, b)).isSome = true)
    (hmid : m.messageID = some i) (hi : i ≤ 65535)
    (htok : m.token.length ≤ 8)
    (hopts : ∀ o ∈ m.options, canonical_option o = true)
    (hpay : m.payload = none ∨ ∃ p, m.payload = some p ∧ p ≠ [])
    (hempty : (a, b) = ((0 : Nat), (0 : Nat)) →
      m.token = [] ∧ m.options = [] ∧ m.payload = none)
    (henc : to_packed m = .ok bs) :
    ∃ m2 : Message, from_packed bs = .ok (some m2) ∧
      m2.messageType = m.messageType ∧ m2.code = m.code ∧
      m2.messageID = m.messageID ∧ m2.token = m.token ∧
      m2.options = sorted_options m.options ∧ m2.payload = m.payload := by
  have hcanS : ∀ o ∈ sorted_options m.options, canonical_option o = true :=
    fun o ho => hopts o (mem_of_mem_sorted_options ho)
  -- Step 1: invert the encoder.
  have hv255 : ¬ 255 <
      ((1 <<< 6) ||| (m.messageType <<< 4) ||| (0x0F &&& m.token.length)) := by
    have h9 := header_byte_le m.messageType htype m.token.length htok
    omega
  have hpc255 : ¬ 255 < ((a <<< 5) ||| b) := by
    have h9 := code_byte_le a ha b hb
    omega
  unfold to_packed at henc
  dsimp only at henc
  rw [if_neg hv255] at henc
  rw [packed_code_eval hcode ha hb] at henc
  dsimp only at henc
  rw [if_neg hpc255] at henc
  rw [hmid] at henc
  dsimp only at henc
  unfold struct_pack_H at henc
  rw [if_neg (by omega)] at henc
  dsimp only at henc
  -- normalize away the payload part
  obtain ⟨pp, hppeq, hppcase⟩ : ∃ pp : Bytes,
      (match m.payload with
        | none => ([] : Bytes)
        | some p => if p.length = 0 then [] else 0xFF :: p) = pp ∧
      ((pp = [] ∧ m.payload = none) ∨
        (∃ p, pp = 0xFF :: p ∧ p ≠ [] ∧ m.payload = some p)) := by
    rcases hpay with h | ⟨p, hp, hne⟩
    · exact ⟨[], by rw [h], Or.inl ⟨rfl, h⟩⟩
    · refine ⟨0xFF :: p, ?_, Or.inr ⟨p, rfl, hne, hp⟩⟩
      rw [hp]
      dsimp only
      rw [if_neg (by simpa using hne)]
  rw [hppeq] at henc
  -- extract the encoded option block
  obtain ⟨ob, hloop, hbseq⟩ : ∃ ob,
      encode_options_loop (isRequestClass m.cls) (sorted_options m.options) 0 =
        .ok ob ∧
      bs = ((1 <<< 6) ||| (m.messageType <<< 4) ||| (0x0F &&& m.token.length)) ::
        ((a <<< 5) ||| b) :: (i >>> 8) :: (i &&& 0xFF) ::
          (m.token ++ (ob ++ pp)) := by
    by_cases hoe : m.options.isEmpty
    · have hnil : m.options = [] := by simpa using hoe
      rw [if_pos hoe] at henc
      dsimp only at henc
      simp only [Except.ok.injEq] at henc
      refine ⟨[], by rw [hnil]; rfl, ?_⟩
      rw [← henc]
      simp
    · rw [if_neg hoe] at henc
      unfold encode_options at henc
      cases hob : encode_options_loop (isRequestClass m.cls)
          (sorted_options m.options) 0 with
      | error e => rw [hob] at henc; exact absurd henc (by simp)
      | ok ob =>
        rw [hob] at henc
        dsimp only at henc
        simp only [Except.ok.injEq] at henc
        refine ⟨ob, rfl, ?_⟩
        rw [← henc]
        simp
  subst hbseq
  -- Step 2: run the decoder.
  have hrest : pp = [] ∨ ∃ p, pp = 0xFF :: p := by
    rcases hppcase with ⟨h1, _⟩ | ⟨p, h1, _, _⟩
    · exact Or.inl h1
    · exact Or.inr ⟨p, h1⟩
  have hdec : decode_options (ob ++ pp) = .ok (sorted_options m.options, pp) := by
    unfold decode_options
    exact decode_encode_loop (isRequestClass m.cls) (sorted_options m.options) 0
      ob pp _ hloop hcanS hrest (le_refl _)
  unfold from_packed
  dsimp only
  rw [if_neg (by rw [header_byte_ver m.messageType htype m.token.length htok]; simp)]
  unfold from_packed_tail
  dsimp only
  rw [header_byte_type m.messageType htype m.token.length htok,
    header_byte_tkl m.messageType htype m.token.length htok]
  rw [code_as_tuple_byte (show ((a <<< 5) ||| b) < 256 by
    have h9 := code_byte_le a ha b hb
    omega)]
  dsimp only
  rw [code_byte_split a ha b hb]
  rw [mid_split hi]
  rw [if_neg (by omega)]
  rw [if_neg ?hcond]
  case hcond =>
    rintro ⟨h1, h2⟩
    obtain ⟨ht0, ho0, hp0⟩ := hempty h1
    have hob : ob = [] := by
      rw [ho0] at hloop
      rw [show sorted_options ([] : List OptInstance) = [] from rfl] at hloop
      rw [show encode_options_loop (isRequestClass m.cls) ([] : List OptInstance) 0 =
        .ok [] from rfl] at hloop
      exact (Except.ok.inj hloop).symm
    have hpp : pp = [] := by
      rcases hppcase with ⟨hp1, _⟩ | ⟨p, _, _, hp2⟩
      · exact hp1
      · rw [hp0] at hp2; cases hp2
    rw [ht0, hob, hpp] at h2
    simp at h2
  rw [List.take_left, List.drop_left, hdec]
  dsimp only
  rcases hppcase with ⟨hpnil, hpaynone⟩ | ⟨p, hpcons, hpne, hpaysome⟩
  · subst hpnil
    dsimp only
    obtain ⟨ctor, hct⟩ := Option.isSome_iff_exists.mp hctor
    rw [hct]
    dsimp only
    rw [message_init_flags ctor htype ha hb hi htok (sorted_options m.options)
      none (Or.inl rfl)]
    refine ⟨_, rfl, rfl, hcode.symm, hmid.symm, rfl, ?_, hpaynone.symm⟩
    exact sorted_options_idem m.options
  · subst hpcons
    dsimp only
    rw [if_neg (by simp)]
    rw [if_neg (by simpa using hpne)]
    obtain ⟨ctor, hct⟩ := Option.isSome_iff_exists.mp hctor
    rw [hct]
    dsimp only
    rw [message_init_flags ctor htype ha hb hi htok (sorted_options m.options)
      (some p) (Or.inr ⟨p, rfl, hpne⟩)]
    refine ⟨_, rfl, rfl, hcode.symm, hmid.symm, rfl, ?_, hpaysome.symm⟩
    exact sorted_options_idem m.options

theorem messageRoundTrip_witness :
    to_packed ⟨.request, 0, some (0, 1), some 1, [0xAA],
        [⟨11, true, .text [97]⟩, ⟨3, true, .text [120, 121]⟩], some [1, 2]⟩ =
      .ok [65, 1, 0, 1, 170, 50, 120, 121, 129, 97, 255, 1, 2] ∧
    (∃ m2 : Message,
      from_packed [65, 1, 0, 1, 170, 50, 120, 121, 129, 97, 255, 1, 2] =
        .ok (some m2) ∧
      m2.messageType = 0 ∧ m2.code = some (0, 1) ∧ m2.messageID = some 1 ∧
      m2.token = [0xAA] ∧
      m2.options =
        sorted_options [⟨11, true, .text [97]⟩, ⟨3, true, .text [120, 121]⟩] ∧
      m2.payload = some [1, 2]) := by
  refine ⟨by decide, ?_⟩
  exact messageRoundTrip
    ⟨.request, 0, some (0, 1), some 1, [0xAA],
      [⟨11, true, .text [97]⟩, ⟨3, true, .text [120, 121]⟩], some [1, 2]⟩
    0 1 1 [65, 1, 0, 1, 170, 50, 120, 121, 129, 97, 255, 1, 2]
    (by decide) rfl (by decide) (by decide) (by decide) rfl (by decide)
    (by decide) (by decide) (Or.inr ⟨[1, 2], rfl, by decide⟩) (by decide)
    (by decide)

end Coapy
